import Mathlib

/-!
# Verification of the vespera compile-time schema/bridging generator

A shallow embedding, in Lean 4, of the core of the `vespera` repository:
the parameter classifier (`parser/parameters.rs`), the schema synthesizer
for enums (`parser/schema/enum_schema.rs`), generic-type substitution
(`parser/schema/generics.rs`), relation analysis
(`schema_macro/relation.rs`) and the construction-strategy generator
(`schema_macro/codegen.rs`, duplicated verbatim in
`schema_macro/from_model.rs`).

Syntax trees produced by `syn` are embedded as plain inductive types;
attribute lists are embedded in already-parsed form (the proc-macro
attribute-parsing plumbing is out of scope per the specification, §1).
`TokenStream` outputs of the generator are embedded as structured
expression trees mirroring the `quote!` templates of the source, with an
evaluation semantics for the generated asynchronous bridge.
-/

set_option maxHeartbeats 1000000

/-! ## Core data model (vespera_core::schema / vespera_core::route)

The `schema` and `route` modules of `vespera_core` are declared by its
`lib.rs` but their sources are not present; the `Schema`, `SchemaRef`,
`Parameter` and `ParameterLocation` shapes below are modelled from the
spec (§3 DATA MODEL).  `enum` values are JSON values in the source; every
value this development ever stores there is a JSON string, so they are
embedded as strings. -/

inductive SchemaType where
  | string
  | number
  | integer
  | boolean
  | array
  | object
  | null
deriving DecidableEq, Repr

mutual

/-- Modelled from the spec (§3): a JSON-Schema-like node.  One constructor
with all fields; accessors below give field-style access. -/
inductive Schema where
  | mk
    (refPath : Option String)
    (schemaType : Option SchemaType)
    (format : Option String)
    (nullable : Option Bool)
    (description : Option String)
    (enumVals : Option (List String))
    (properties : Option (List (String × SchemaRef)))
    (required : Option (List String))
    (items : Option SchemaRef)
    (prefixItems : Option (List SchemaRef))
    (minItems : Option Nat)
    (maxItems : Option Nat)
    (oneOf : Option (List SchemaRef))
    (allOf : Option (List SchemaRef))

/-- Modelled from the spec (§3): `Ref(path)` | `Inline(Schema)`. -/
inductive SchemaRef where
  | ref (refPath : String)
  | inline (s : Schema)

end

def Schema.schemaType : Schema → Option SchemaType
  | .mk _ t _ _ _ _ _ _ _ _ _ _ _ _ => t

def Schema.enumVals : Schema → Option (List String)
  | .mk _ _ _ _ _ e _ _ _ _ _ _ _ _ => e

def Schema.properties : Schema → Option (List (String × SchemaRef))
  | .mk _ _ _ _ _ _ p _ _ _ _ _ _ _ => p

def Schema.required : Schema → Option (List String)
  | .mk _ _ _ _ _ _ _ r _ _ _ _ _ _ => r

def Schema.oneOf : Schema → Option (List SchemaRef)
  | .mk _ _ _ _ _ _ _ _ _ _ _ _ o _ => o

def Schema.allOf : Schema → Option (List SchemaRef)
  | .mk _ _ _ _ _ _ _ _ _ _ _ _ _ a => a

def Schema.nullable : Schema → Option Bool
  | .mk _ _ _ n _ _ _ _ _ _ _ _ _ _ => n

def Schema.description : Schema → Option String
  | .mk _ _ _ _ d _ _ _ _ _ _ _ _ _ => d

/-- `Schema::default()`: every field absent. -/
def Schema.defaultSchema : Schema :=
  .mk none none none none none none none none none none none none none none

/-- `Schema::new(t)`: a fresh schema with only `schema_type` set. -/
def Schema.new (t : SchemaType) : Schema :=
  .mk none (some t) none none none none none none none none none none none none

/-- `Schema::string()`. -/
def Schema.string : Schema := Schema.new .string

/-- `Schema::object()`. -/
def Schema.object : Schema := Schema.new .object

inductive ParameterLocation where
  | path
  | query
  | header
deriving DecidableEq, Repr

/-- Modelled from the spec (§3): name, location, required flag, optional
schema, optional example. -/
structure Parameter where
  name : String
  location : ParameterLocation
  description : Option String
  required : Option Bool
  schema : Option SchemaRef
  exampleVal : Option String

/-! ## Syntax-tree embedding (syn)

`syn::Type`, `syn::Pat`, `syn::FnArg` and the item shapes are embedded
structurally.  Opaque forms the source only clones (`BareFn`,
`TraitObject`, `Verbatim`, parenthesized path arguments, array length
expressions, lifetimes) are carried as strings. -/

mutual

inductive Ty where
  | path (segments : List PathSeg)
  | reference (lifetime : Option String) (mutable : Bool) (elem : Ty)
  | slice (elem : Ty)
  | array (elem : Ty) (len : String)
  | tuple (elems : List Ty)
  | bareFn (repr : String)
  | traitObject (repr : String)
  | verbatim (repr : String)

inductive PathSeg where
  | mk (ident : String) (args : PathArgs)

inductive PathArgs where
  | noArgs
  | angleBracketed (args : List GenArg)
  | parenthesized (repr : String)

inductive GenArg where
  | tyArg (t : Ty)
  | lifetime (name : String)
  | otherArg (repr : String)

end

def PathSeg.ident : PathSeg → String
  | .mk i _ => i

def PathSeg.args : PathSeg → PathArgs
  | .mk _ a => a

inductive Pat where
  | ident (name : String)
  | tupleStruct (elems : List Pat)
  | tuplePat (elems : List Pat)
  | wild

inductive FnArg where
  | receiver
  | typed (pat : Pat) (ty : Ty)

/-- Modelled from the spec (§1 OUT OF SCOPE: attribute-parsing plumbing):
the result of parsing an item's or field's attribute list.  Each
`extract_*` helper of the absent `parser::serde_attrs` /
`parser` modules becomes a projection of this record. -/
structure Attrs where
  rename : Option String := none
  renameAll : Option String := none
  skip : Bool := false
  hasDefault : Bool := false
  skipSerializingIf : Bool := false
  doc : Option String := none
  seaOrmFrom : Option String := none

structure RsField where
  ident : Option String
  attrs : Attrs
  ty : Ty

inductive Fields where
  | named (fields : List RsField)
  | unnamed (fields : List RsField)
  | unit

structure ItemStruct where
  ident : String
  attrs : Attrs
  fields : Fields

structure Variant where
  ident : String
  attrs : Attrs
  fields : Fields

structure ItemEnum where
  ident : String
  attrs : Attrs
  variants : List Variant

/-- `crate::metadata::StructMetadata`.  The source stores `definition` as a
string and re-parses it at each use site with `syn::parse_str`; the
embedding stores the parse result directly (`none` = parse failure). -/
structure StructMetadata where
  name : String
  modulePath : String
  filePath : String
  definition : Option ItemStruct

/-- Registry maps (`known_schemas` / `struct_definitions`): name to stored
definition text, with the text kept in parsed form as in
`StructMetadata.definition`. -/
def KnownMap : Type := List (String × Option ItemStruct)

/-! ## Attribute extraction helpers

These stand for the `extract_*` functions of the absent
`parser`/`serde_attrs` modules; each is modelled from the spec as a
projection of the parsed attribute set. -/

/-- Modelled from the spec: `extract_field_rename` — explicit per-field or
per-variant `#[serde(rename = "...")]`. -/
def extractFieldRename (a : Attrs) : Option String := a.rename

/-- Modelled from the spec: `extract_rename_all` — container-level
`#[serde(rename_all = "...")]` policy. -/
def extractRenameAll (a : Attrs) : Option String := a.renameAll

/-- Modelled from the spec: `extract_skip` — `#[serde(skip)]`. -/
def extractSkip (a : Attrs) : Bool := a.skip

/-- Modelled from the spec: `extract_default` is used only through
`.is_some()`; presence of a default-value annotation. -/
def extractDefaultIsSome (a : Attrs) : Bool := a.hasDefault

/-- Modelled from the spec: `extract_skip_serializing_if` —
`#[serde(skip_serializing_if = "...")]`. -/
def extractSkipSerializingIf (a : Attrs) : Bool := a.skipSerializingIf

/-- Modelled from the spec: `extract_doc_comment`. -/
def extractDocComment (a : Attrs) : Option String := a.doc

/-- `extract_belongs_to_from_field` (schema_macro/relation.rs):
the `from = "..."` value of a `#[sea_orm(...)]` attribute.  The attribute
walk itself is parsing plumbing; its result is the projection below. -/
def extractBelongsToFromField (a : Attrs) : Option String := a.seaOrmFrom

/-! ## String helpers -/

/-- Whether `pat` occurs as a prefix of `l` (on character lists). -/
def listStartsWith : List Char → List Char → Bool
  | _, [] => true
  | [], _ :: _ => false
  | c :: cs, p :: ps => c == p && listStartsWith cs ps

/-- Whether `pat` occurs as a contiguous substring of `hay`
(`str::contains` on character lists). -/
def listContainsSub : List Char → List Char → Bool
  | [], pat => pat.isEmpty
  | hay@(_ :: rest), pat => listStartsWith hay pat || listContainsSub rest pat

/-- Rust `str::contains(pat)`. -/
def strContains (s pat : String) : Bool := listContainsSub s.toList pat.toList

/-- Fuel-driven body of `replaceSub`; the fuel starts at the haystack
length, so it never runs out. -/
def replaceSubGo : Nat → List Char → List Char → List Char → List Char
  | 0, _, _, _ => []
  | _ + 1, [], _, _ => []
  | n + 1, c :: rest, pat, rep =>
    if !pat.isEmpty && listStartsWith (c :: rest) pat then
      rep ++ replaceSubGo n ((c :: rest).drop pat.length) pat rep
    else c :: replaceSubGo n rest pat rep

/-- Rust `str::replace(pat, rep)`: replace every non-overlapping occurrence
of `pat`, scanning left to right. -/
def replaceSub (s pat rep : String) : String :=
  String.mk (replaceSubGo s.toList.length s.toList pat.toList rep.toList)

/-- Rust `str::starts_with`. -/
def strStartsWith (s pre : String) : Bool := listStartsWith s.toList pre.toList

/-- Rust `str[n..]` / `.strip_prefix` remainder: drop the first `n`
characters. -/
def strDrop (s : String) (n : Nat) : String := String.mk (s.toList.drop n)

/-- `type_utils::capitalize_first` — modelled from the spec: upper-case the
first character. -/
def capitalizeFirst (s : String) : String :=
  match s.toList with
  | [] => ""
  | c :: rest => String.mk (c.toUpper :: rest)

/-- `strip_raw_prefix` of the absent `serde_attrs` module — modelled from
the spec: drop a leading `r#` raw-identifier marker. -/
def stripRaw (s : String) : String :=
  if strStartsWith s "r#" then strDrop s 2 else s

/-- Word split used by `rename_field`: split a Rust identifier into
lower-cased words at underscores and lower/upper case boundaries. -/
def splitWordsGo : List Char → List Char → List (List Char)
  | [], acc => if acc.isEmpty then [] else [acc.reverse]
  | c :: rest, acc =>
    if c == '_' then
      (if acc.isEmpty then splitWordsGo rest [] else acc.reverse :: splitWordsGo rest [])
    else if c.isUpper then
      (if acc.isEmpty then splitWordsGo rest [c.toLower]
       else acc.reverse :: splitWordsGo rest [c.toLower])
    else splitWordsGo rest (c :: acc)

def splitWords (s : String) : List String :=
  (splitWordsGo s.toList []).map String.mk

/-- Modelled from the spec (§4.2): `rename_field` — apply a container-level
case-conversion policy (snake_case / camelCase / kebab-case /
SCREAMING_SNAKE_CASE), identity when no policy or an unrecognized policy
is given. -/
def renameField (name : String) (renameAll : Option String) : String :=
  match renameAll with
  | none => name
  | some policy =>
    let ws := splitWords name
    if policy == "snake_case" then String.intercalate "_" ws
    else if policy == "kebab-case" then String.intercalate "-" ws
    else if policy == "SCREAMING_SNAKE_CASE" then
      String.intercalate "_" (ws.map (fun w => String.mk (w.toList.map Char.toUpper)))
    else if policy == "camelCase" then
      match ws with
      | [] => ""
      | w :: rest => String.intercalate "" (w :: rest.map capitalizeFirst)
    else if policy == "PascalCase" then
      String.intercalate "" (ws.map capitalizeFirst)
    else name

/-! ## Type rendering

The relation analyzer renders types with `quote!(...).to_string()` and
then strips spaces (`.replace(' ', "")`) before substring tests.  The
embedding produces the space-free rendering directly. -/

mutual

def renderTyNorm : Ty → String
  | .path segs => String.intercalate "::" (renderSegList segs)
  | .reference lt m elem =>
    "&" ++ (match lt with | some l => "\x27" ++ l | none => "")
      ++ (if m then "mut" else "") ++ renderTyNorm elem
  | .slice elem => "[" ++ renderTyNorm elem ++ "]"
  | .array elem len => "[" ++ renderTyNorm elem ++ ";" ++ len ++ "]"
  | .tuple elems => "(" ++ String.intercalate "," (renderTyList elems) ++ ")"
  | .bareFn r => r
  | .traitObject r => r
  | .verbatim r => r

def renderTyList : List Ty → List String
  | [] => []
  | t :: rest => renderTyNorm t :: renderTyList rest

def renderSegList : List PathSeg → List String
  | [] => []
  | s :: rest => renderSeg s :: renderSegList rest

def renderSeg : PathSeg → String
  | .mk ident args => ident ++ renderArgs args

def renderArgs : PathArgs → String
  | .noArgs => ""
  | .angleBracketed args => "<" ++ String.intercalate "," (renderGenArgList args) ++ ">"
  | .parenthesized r => r

def renderGenArgList : List GenArg → List String
  | [] => []
  | a :: rest => renderGenArg a :: renderGenArgList rest

def renderGenArg : GenArg → String
  | .tyArg t => renderTyNorm t
  | .lifetime n => "\x27" ++ n
  | .otherArg r => r

end

/-- Modelled from the spec: canonical space-free rendering of the parsed
attribute set, standing for `quote!` applied to the original attribute
tokens.  Only substring tests for relation-type markers are ever applied
to it. -/
def renderAttrsNorm (a : Attrs) : String :=
  (match a.doc with | some d => "#[doc=\"" ++ d ++ "\"]" | none => "")
    ++ (if a.skip then "#[serde(skip)]" else "")
    ++ (match a.rename with | some v => "#[serde(rename=\"" ++ v ++ "\")]" | none => "")
    ++ (match a.renameAll with
        | some v => "#[serde(rename_all=\"" ++ v ++ "\")]" | none => "")
    ++ (if a.hasDefault then "#[serde(default)]" else "")
    ++ (if a.skipSerializingIf then "#[serde(skip_serializing_if)]" else "")
    ++ (match a.seaOrmFrom with
        | some v => "#[sea_orm(from=\"" ++ v ++ "\")]" | none => "")

/-- Space-free rendering of a whole `syn::Field` (attributes, name, colon,
type), as interpolated by `quote!(#field.ty)` in
`is_circular_relation_required` — note the source interpolates the entire
field and appends the literal tokens `.ty`. -/
def renderFieldNorm (f : RsField) : String :=
  renderAttrsNorm f.attrs ++ (f.ident.getD "") ++ ":" ++ renderTyNorm f.ty

/-! ## Type classifier helpers (absent `type_utils` / `type_schema`) -/

/-- Modelled from the spec (§4.1): `type_utils::is_option_type` — the type
is the known wrapper `Option<T>`, recognized on the last path segment so
both short and fully-qualified forms match. -/
def isOptionType : Ty → Bool
  | .path segs =>
    match segs.getLast? with
    | some s => s.ident == "Option"
    | none => false
  | _ => false

/-- Modelled from the spec (§4.4): `type_utils::is_seaorm_relation_type` —
the type's head symbol is one of the relation markers `HasOne`, `HasMany`,
`BelongsTo` (last path segment). -/
def isSeaormRelationType : Ty → Bool
  | .path segs =>
    match segs.getLast? with
    | some s => s.ident == "HasOne" || s.ident == "HasMany" || s.ident == "BelongsTo"
    | _ => false
  | _ => false

/-- Modelled from the spec (§4.1): `is_primitive_type` — recognized
string/number/boolean/integer family, by last path segment. -/
def isPrimitiveType : Ty → Bool
  | .path segs =>
    match segs.getLast? with
    | some s =>
      ["String", "str", "bool", "char",
       "i8", "i16", "i32", "i64", "i128", "isize",
       "u8", "u16", "u32", "u64", "u128", "usize",
       "f32", "f64"].contains s.ident
    | none => false
  | _ => false

/-- Modelled from the spec (§4.1): the primitive JSON schema node for a
recognized primitive type name. -/
def primitiveSchema (ident : String) : Schema :=
  if ident == "String" || ident == "str" || ident == "char" then Schema.string
  else if ident == "bool" then Schema.new .boolean
  else if ident == "f32" || ident == "f64" then Schema.new .number
  else Schema.new .integer

/-- Modelled from the spec (§4.1–§4.2): `parse_type_to_schema_ref` /
`parse_type_to_schema_ref_with_schemas` of the absent `type_schema`
module — primitives become inline primitive schemas, known named types
become `$ref`s into `#/components/schemas/`, `Vec<T>` becomes an inline
array, `Option<T>` resolves through its inner type, everything else an
inline object.  (The wrapper cases are recognized in their short
single-segment form; no claim below inspects this function's output
beyond its presence.) -/
def parseTypeToSchemaRefWithSchemas :
    Ty → KnownMap → KnownMap → SchemaRef
  | t@(.path segs), knownSchemas, structDefinitions =>
    match segs with
    | [] => .inline Schema.object
    | s0 :: srest =>
      let seg := (s0 :: srest).getLast (List.cons_ne_nil s0 srest)
      if isPrimitiveType t then .inline (primitiveSchema seg.ident)
      else if (knownSchemas.map Prod.fst).contains seg.ident
              || (structDefinitions.map Prod.fst).contains seg.ident then
        .ref ("#/components/schemas/" ++ seg.ident)
      else
        match s0, srest with
        | PathSeg.mk "Vec" (.angleBracketed (.tyArg inner :: _)), [] =>
          .inline (Schema.mk none (some .array) none none none none none none
            (some (parseTypeToSchemaRefWithSchemas inner knownSchemas structDefinitions))
            none none none none none)
        | PathSeg.mk "Option" (.angleBracketed (.tyArg inner :: _)), [] =>
          parseTypeToSchemaRefWithSchemas inner knownSchemas structDefinitions
        | _, _ => .inline Schema.object
  | _, _, _ => .inline Schema.object

/-- `parse_type_to_schema_ref` as used with both registry maps in scope. -/
def parseTypeToSchemaRef (t : Ty) (knownSchemas structDefinitions : KnownMap) :
    SchemaRef :=
  parseTypeToSchemaRefWithSchemas t knownSchemas structDefinitions

/-! ## Generic substitution (parser/schema/generics.rs) -/

mutual

/-- `substitute_type`: replace single-segment, argument-free path types
whose identifier is one of `genericParams` with the matching entry of
`concreteTypes`; recurse through path arguments, references, slices,
arrays and tuples; clone everything else. -/
def substituteType (ty : Ty) (genericParams : List String)
    (concreteTypes : List Ty) : Ty :=
  match ty with
  | .path segs =>
    if segs.isEmpty then ty
    else
      let direct : Option Ty :=
        match segs with
        | [PathSeg.mk ident .noArgs] =>
          match genericParams.findIdx? (fun p => p == ident) with
          | some index => concreteTypes.get? index
          | none => none
        | _ => none
      match direct with
      | some concrete => concrete
      | none => .path (substSegList segs genericParams concreteTypes)
  | .reference lt m elem =>
    .reference lt m (substituteType elem genericParams concreteTypes)
  | .slice elem => .slice (substituteType elem genericParams concreteTypes)
  | .array elem len => .array (substituteType elem genericParams concreteTypes) len
  | .tuple elems => .tuple (substTyList elems genericParams concreteTypes)
  | other => other

def substTyList (ts : List Ty) (genericParams : List String)
    (concreteTypes : List Ty) : List Ty :=
  match ts with
  | [] => []
  | t :: rest =>
    substituteType t genericParams concreteTypes
      :: substTyList rest genericParams concreteTypes

def substSegList (segs : List PathSeg) (genericParams : List String)
    (concreteTypes : List Ty) : List PathSeg :=
  match segs with
  | [] => []
  | PathSeg.mk ident args :: rest =>
    PathSeg.mk ident (substPathArgs args genericParams concreteTypes)
      :: substSegList rest genericParams concreteTypes

def substPathArgs (args : PathArgs) (genericParams : List String)
    (concreteTypes : List Ty) : PathArgs :=
  match args with
  | .angleBracketed as => .angleBracketed (substGenArgList as genericParams concreteTypes)
  | other => other

def substGenArgList (as : List GenArg) (genericParams : List String)
    (concreteTypes : List Ty) : List GenArg :=
  match as with
  | [] => []
  | .tyArg t :: rest =>
    .tyArg (substituteType t genericParams concreteTypes)
      :: substGenArgList rest genericParams concreteTypes
  | other :: rest => other :: substGenArgList rest genericParams concreteTypes

end

mutual

/-- Whether any path-segment identifier occurring anywhere inside the type
equals one of the given names.  When this is false, no substitution site
can fire. -/
def tyMentions (names : List String) : Ty → Bool
  | .path segs => segListMentions names segs
  | .reference _ _ elem => tyMentions names elem
  | .slice elem => tyMentions names elem
  | .array elem _ => tyMentions names elem
  | .tuple elems => tyListMentions names elems
  | _ => false

def tyListMentions (names : List String) : List Ty → Bool
  | [] => false
  | t :: rest => tyMentions names t || tyListMentions names rest

def segListMentions (names : List String) : List PathSeg → Bool
  | [] => false
  | PathSeg.mk ident args :: rest =>
    names.contains ident || pathArgsMentions names args || segListMentions names rest

def pathArgsMentions (names : List String) : PathArgs → Bool
  | .angleBracketed as => genArgListMentions names as
  | _ => false

def genArgListMentions (names : List String) : List GenArg → Bool
  | [] => false
  | .tyArg t :: rest => tyMentions names t || genArgListMentions names rest
  | _ :: rest => genArgListMentions names rest

end

/-! ## Parameter classifier (parser/parameters.rs) -/

/-- Registry access: `map.get(&name)` followed by `syn::parse_str` —
yields the parsed struct only when the name is present and its stored
definition parses. -/
def kmGetParsed (m : KnownMap) (k : String) : Option ItemStruct :=
  match m.find? (fun e => e.fst == k) with
  | some (_, d) => d
  | none => none

/-- Registry key test: `map.contains_key(&name)`. -/
def kmContainsKey (m : KnownMap) (k : String) : Bool :=
  (m.map Prod.fst).contains k

/-- The `Option<T>` test used locally in parameters.rs and
enum_schema.rs: the FIRST path segment's identifier is `Option`. -/
def isOptionFirstSeg : Ty → Bool
  | .path segs =>
    match segs.head? with
    | some s => s.ident == "Option"
    | none => false
  | _ => false

/-- `is_map_type`: last path segment is `HashMap` or `BTreeMap`. -/
def isMapType : Ty → Bool
  | .path segs =>
    match segs.getLast? with
    | some s => s.ident == "HashMap" || s.ident == "BTreeMap"
    | none => false
  | _ => false

/-- `is_known_type`: primitive, registered struct/schema name, or a
`Vec`/`Option` wrapper (by last segment) around a known type. -/
def isKnownType : Ty → KnownMap → KnownMap → Bool
  | t@(.path (s0 :: srest)), knownSchemas, structDefinitions =>
    if isPrimitiveType t then true
    else
      match hseg : (s0 :: srest).getLast (List.cons_ne_nil s0 srest) with
      | PathSeg.mk segIdent segArgs =>
        if kmContainsKey structDefinitions segIdent
            || kmContainsKey knownSchemas segIdent then true
        else
          match segArgs with
          | .angleBracketed (.tyArg inner :: _) =>
            if segIdent == "Vec" || segIdent == "Option" then
              isKnownType inner knownSchemas structDefinitions
            else false
          | _ => false
  | t, _, _ => isPrimitiveType t
termination_by t _ _ => sizeOf t
decreasing_by
  simp_wf
  have h1 : sizeOf ((s0 :: srest).getLast (List.cons_ne_nil s0 srest))
      < sizeOf (s0 :: srest) :=
    List.sizeOf_lt_of_mem (List.getLast_mem (List.cons_ne_nil s0 srest))
  rw [hseg] at h1
  simp at h1
  omega

def stringSchemaRef : SchemaRef := .inline Schema.string

/-- Every `Parameter` this classifier builds has no description and no
example; only name, location, required flag and schema vary. -/
def mkParam (name : String) (loc : ParameterLocation) (req : Bool)
    (schema : SchemaRef) : Parameter :=
  { name := name, location := loc, description := none,
    required := some req, schema := some schema, exampleVal := none }

/-- Modelled from the spec (§4.2): `parse_struct_to_schema` of the absent
schema parser module — object schema over the named fields, skipping
`#[serde(skip)]`, renaming per field override then container policy,
required iff non-`Option`, no default, no conditional skip. -/
def parseStructToSchema (structItem : ItemStruct)
    (knownSchemas structDefinitions : KnownMap) : Schema :=
  match structItem.fields with
  | .named fs =>
    let renameAll := extractRenameAll structItem.attrs
    let entries := fs.filterMap fun f =>
      if extractSkip f.attrs then none
      else
        let rustName := stripRaw ((f.ident).getD "unknown")
        let name :=
          match extractFieldRename f.attrs with
          | some renamed => renamed
          | none => renameField rustName renameAll
        some (name, f)
    let props := entries.map fun (n, f) =>
      (n, parseTypeToSchemaRefWithSchemas f.ty knownSchemas structDefinitions)
    let req := (entries.filter fun (_, f) =>
      !isOptionType f.ty && !extractDefaultIsSome f.attrs
        && !extractSkipSerializingIf f.attrs).map Prod.fst
    Schema.mk none (some .object) none none none none
      (if props.isEmpty then none else some props)
      (if req.isEmpty then none else some req)
      none none none none none none
  | _ => Schema.object

/-- `parse_query_struct_to_parameters`: expand a known struct type into one
Query parameter per named field. -/
def parseQueryStructToParameters (ty : Ty)
    (knownSchemas structDefinitions : KnownMap) : Option (List Parameter) :=
  match ty with
  | .path segs =>
    match segs.getLast? with
    | none => none
    | some seg =>
      match kmGetParsed structDefinitions seg.ident with
      | none => none
      | some structItem =>
        let renameAll := extractRenameAll structItem.attrs
        let parameters :=
          match structItem.fields with
          | .named fieldsNamed =>
            fieldsNamed.map fun field =>
              let rustFieldName := (field.ident).getD "unknown"
              let fieldName :=
                match extractFieldRename field.attrs with
                | some renamed => renamed
                | none => renameField rustFieldName renameAll
              let isOptional := isOptionFirstSeg field.ty
              let fieldSchema :=
                parseTypeToSchemaRefWithSchemas field.ty knownSchemas
                  structDefinitions
              let fieldSchema : SchemaRef :=
                match fieldSchema with
                | .ref refPath =>
                  if strStartsWith refPath "#/components/schemas/" then
                    let typeName := strDrop refPath "#/components/schemas/".length
                    match kmGetParsed structDefinitions typeName with
                    | some nestedStructItem =>
                      .inline (parseStructToSchema nestedStructItem knownSchemas
                        structDefinitions)
                    | none => fieldSchema
                  else fieldSchema
                | _ => fieldSchema
              let finalSchema : SchemaRef :=
                if isOptional then
                  match fieldSchema with
                  | .inline (Schema.mk rp st fo _ d e p r it pi mi ma oo ao) =>
                    SchemaRef.inline
                      (Schema.mk rp st fo (some true) d e p r it pi mi ma oo ao)
                  | .ref _ =>
                    SchemaRef.inline
                      (Schema.mk none (some .object) none (some true) none none
                        none none none none none none none none)
                else
                  match fieldSchema with
                  | .ref _ => SchemaRef.inline (Schema.new .object)
                  | .inline s => SchemaRef.inline s
              mkParam fieldName .query (!isOptional) finalSchema
          | _ => []
        if !parameters.isEmpty then some parameters else none
  | _ => none

/-- The parameter-name extraction at the top of `parse_function_parameter`:
a plain identifier pattern, or a tuple-struct pattern (`Path(id)`) with a
single identifier element. -/
def extractParamName : Pat → Option String
  | .ident n => some n
  | .tupleStruct [Pat.ident n] => some n
  | _ => none


/-- The leading `Option<TypedHeader<T>>` check of
`parse_function_parameter` (first segment `Option`, inner last segment
`TypedHeader`): one optional Header parameter with a plain string schema,
underscores in the binding name turned into hyphens. -/
def optionTypedHeaderBranch (paramName : String) (ty : Ty) :
    Option (List Parameter) :=
  match ty with
  | .path (seg0 :: _) =>
    if seg0.ident == "Option" then
      match seg0.args with
      | .angleBracketed (.tyArg (.path innerSegs) :: _) =>
        match innerSegs.getLast? with
        | some innerSeg =>
          if innerSeg.ident == "TypedHeader" then
            some [mkParam (replaceSub paramName "_" "-") .header false
              stringSchemaRef]
          else none
        | none => none
      | _ => none
    else none
  | _ => none

/-- The tuple-`Path` expansion: one Path parameter per tuple element that
has a positional route placeholder; elements beyond the placeholder list
are dropped. -/
def tuplePathParams (tupleElems : List Ty) (pathParams : List String)
    (knownSchemas structDefinitions : KnownMap) : List Parameter :=
  tupleElems.enum.filterMap fun (idx, elemTy) =>
    (pathParams.get? idx).map fun pname =>
      mkParam pname .path true
        (parseTypeToSchemaRefWithSchemas elemTy knownSchemas structDefinitions)

/-- The extractor `match` on the last segment of the parameter type.
`some r` embeds an early `return r` of the source; `none` falls through to
the placeholder-name fallback. -/
def extractorBranch (paramName : String) (ty : Ty) (pathParams : List String)
    (knownSchemas structDefinitions : KnownMap) :
    Option (Option (List Parameter)) :=
  match ty with
  | .path segs =>
    match segs.getLast? with
    | none => none
    | some seg =>
      match seg.ident, seg.args with
      | "Path", .angleBracketed (.tyArg inner :: _) =>
        match inner with
        | .tuple tupleElems =>
          let parameters :=
            tuplePathParams tupleElems pathParams knownSchemas structDefinitions
          if !parameters.isEmpty then some (some parameters) else none
        | _ =>
          let name :=
            if pathParams.length == 1 then (pathParams.head?).getD paramName
            else paramName
          some (some [mkParam name .path true
            (parseTypeToSchemaRefWithSchemas inner knownSchemas
              structDefinitions)])
      | "Query", .angleBracketed (.tyArg inner :: _) =>
        if isMapType inner then some none
        else
          match parseQueryStructToParameters inner knownSchemas
              structDefinitions with
          | some structParams => some (some structParams)
          | none =>
            if !isKnownType inner knownSchemas structDefinitions then some none
            else
              some (some [mkParam paramName .query true
                (parseTypeToSchemaRefWithSchemas inner knownSchemas
                  structDefinitions)])
      | "Header", .angleBracketed (.tyArg inner :: _) =>
        some (some [mkParam paramName .header true
          (parseTypeToSchemaRefWithSchemas inner knownSchemas
            structDefinitions)])
      | "TypedHeader", _ =>
        some (some [mkParam (replaceSub paramName "_" "-") .header true
          stringSchemaRef])
      | "Json", _ => some none
      | _, _ => none
  | _ => none

/-- `parse_function_parameter` (parser/parameters.rs): classify one
function argument into zero or more OpenAPI parameters, or `none` when it
is ignored. -/
def parseFunctionParameter (arg : FnArg) (pathParams : List String)
    (knownSchemas structDefinitions : KnownMap) : Option (List Parameter) :=
  match arg with
  | .receiver => none
  | .typed pat ty =>
    match extractParamName pat with
    | none => none
    | some paramName =>
      match optionTypedHeaderBranch paramName ty with
      | some r => some r
      | none =>
        match extractorBranch paramName ty pathParams knownSchemas
            structDefinitions with
        | some r => r
        | none =>
          if pathParams.contains paramName then
            some [mkParam paramName .path true
              (parseTypeToSchemaRefWithSchemas ty knownSchemas
                structDefinitions)]
          else none

/-! ## Enum schema synthesis (parser/schema/enum_schema.rs) -/

/-- `BTreeMap::insert` on an association list kept sorted by key:
replaces an existing binding, otherwise inserts in order. -/
def btreeInsert (m : List (String × SchemaRef)) (k : String) (v : SchemaRef) :
    List (String × SchemaRef) :=
  match m with
  | [] => [(k, v)]
  | (k0, v0) :: rest =>
    if k < k0 then (k, v) :: (k0, v0) :: rest
    else if k == k0 then (k, v) :: rest
    else (k0, v0) :: btreeInsert rest k v

def Schema.setDescription (s : Schema) (d : Option String) : Schema :=
  match s with
  | .mk rp st f n _ e p r i pi mi ma o a => .mk rp st f n d e p r i pi mi ma o a

def isUnitVariant (v : Variant) : Bool :=
  match v.fields with
  | .unit => true
  | _ => false

/-- The variant name under the rename pipeline: per-variant
`#[serde(rename)]` takes precedence over the container `rename_all`
policy, which takes precedence over the (raw-stripped) identity name. -/
def variantKey (renameAll : Option String) (v : Variant) : String :=
  let variantName := stripRaw v.ident
  match extractFieldRename v.attrs with
  | some renamed => renamed
  | none => renameField variantName renameAll

/-- One `one_of` entry of the non-unit-enum branch of
`parse_enum_to_schema`, per variant shape. -/
def mixedVariantSchema (knownSchemas structDefinitions : KnownMap)
    (renameAll : Option String) (v : Variant) : Schema :=
  let key := variantKey renameAll v
  let variantDescription := extractDocComment v.attrs
  match v.fields with
  | .unit =>
    Schema.mk none (some .string) none none variantDescription (some [key])
      none none none none none none none none
  | .unnamed fieldsUnnamed =>
    match fieldsUnnamed with
    | [f] =>
      let innerSchema :=
        parseTypeToSchemaRef f.ty knownSchemas structDefinitions
      Schema.mk none (some .object) none none variantDescription none
        (some (btreeInsert [] key innerSchema)) (some [key])
        none none none none none none
    | fs =>
      let tupleItemSchemas :=
        fs.map fun field =>
          parseTypeToSchemaRef field.ty knownSchemas structDefinitions
      let tupleLen := tupleItemSchemas.length
      let arraySchema :=
        Schema.mk none (some .array) none none none none none none none
          (some tupleItemSchemas) (some tupleLen) (some tupleLen) none none
      Schema.mk none (some .object) none none variantDescription none
        (some (btreeInsert [] key (.inline arraySchema))) (some [key])
        none none none none none none
  | .named fieldsNamed =>
    let variantRenameAll := extractRenameAll v.attrs
    let step := fun (acc : List (String × SchemaRef) × List String)
        (field : RsField) =>
      let rustFieldName := stripRaw ((field.ident).getD "unknown")
      let fieldName :=
        match extractFieldRename field.attrs with
        | some renamed => renamed
        | none =>
          renameField rustFieldName (variantRenameAll.orElse fun _ => renameAll)
      let schemaRef :=
        parseTypeToSchemaRef field.ty knownSchemas structDefinitions
      let schemaRef :=
        match extractDocComment field.attrs with
        | some docText =>
          match schemaRef with
          | .inline s => SchemaRef.inline (s.setDescription (some docText))
          | .ref reference =>
            SchemaRef.inline (Schema.mk none none none none (some docText)
              none none none none none none none none
              (some [SchemaRef.ref reference]))
        | none => schemaRef
      let props := btreeInsert acc.1 fieldName schemaRef
      let req :=
        if !isOptionFirstSeg field.ty then acc.2 ++ [fieldName] else acc.2
      (props, req)
    let result := fieldsNamed.foldl step ([], [])
    let innerStructSchema :=
      Schema.mk none (some .object) none none none none
        (if result.1.isEmpty then none else some result.1)
        (if result.2.isEmpty then none else some result.2)
        none none none none none none
    Schema.mk none (some .object) none none variantDescription none
      (some (btreeInsert [] key (.inline innerStructSchema))) (some [key])
      none none none none none none

/-- `parse_enum_to_schema`: unit-only enums become a string schema with an
`enum` list; enums with data become a `one_of` schema with no top-level
type. -/
def parseEnumToSchema (enumItem : ItemEnum)
    (knownSchemas structDefinitions : KnownMap) : Schema :=
  let enumDescription := extractDocComment enumItem.attrs
  let renameAll := extractRenameAll enumItem.attrs
  let allUnit := enumItem.variants.all isUnitVariant
  if allUnit then
    let enumValues := enumItem.variants.map (variantKey renameAll)
    Schema.mk none (some .string) none none enumDescription
      (if enumValues.isEmpty then none else some enumValues)
      none none none none none none none none
  else
    let oneOfSchemas := enumItem.variants.map fun v =>
      SchemaRef.inline
        (mixedVariantSchema knownSchemas structDefinitions renameAll v)
    Schema.mk none none none none enumDescription none none none none none
      none none (if oneOfSchemas.isEmpty then none else some oneOfSchemas)
      none

/-! ## Relation analysis (schema_macro/relation.rs) -/

/-- `is_field_optional_in_struct`: locate the named field among the
struct's named fields and test `Option`-ness; `false` when the field (or
a named-fields body) is absent. -/
def isFieldOptionalInStruct (structItem : ItemStruct) (fieldName : String) :
    Bool :=
  match structItem.fields with
  | .named fieldsNamed =>
    match fieldsNamed.find? (fun f => f.ident == some fieldName) with
    | some f => isOptionType f.ty
    | none => false
  | _ => false

/-- The converted field type emitted alongside the relation info:
`Option<Box<Schema>>`, `Box<Schema>` or `Vec<Schema>`. -/
inductive ConvertedTy where
  | optionBox (schemaPath : List String)
  | boxPath (schemaPath : List String)
  | vecPath (schemaPath : List String)
deriving DecidableEq, Repr

structure RelationFieldInfo where
  fieldName : String
  relationType : String
  schemaPath : List String
  isOptional : Bool
  inlineTypeInfo : Option (String × List String)
deriving DecidableEq, Repr

def entityToSchemaSeg (s : String) : String :=
  if s == "Entity" then "Schema" else s

/-- Absolute-path resolution of the relation target: `super::`-relative
paths strip one trailing source-module segment per `super`, `crate`-rooted
paths pass through, other paths are siblings of the source module; the
`Entity` segment becomes `Schema`. -/
def resolveAbsoluteSegments (segments : List String)
    (sourceModulePath : List String) : List String :=
  match segments with
  | "super" :: _ =>
    let superCount := (segments.takeWhile (fun s => s == "super")).length
    let parentPathLen := sourceModulePath.length - superCount
    sourceModulePath.take parentPathLen
      ++ (segments.drop superCount).map entityToSchemaSeg
  | "crate" :: _ => segments.map entityToSchemaSeg
  | _ =>
    let parentPathLen := sourceModulePath.length - 1
    sourceModulePath.take parentPathLen ++ segments.map entityToSchemaSeg

/-- `convert_relation_type_to_schema_with_info`: recognize
`HasOne`/`HasMany`/`BelongsTo` on the last path segment, resolve the inner
entity path, and determine optionality (`HasMany` never optional;
`HasOne`/`BelongsTo` from the `from = "..."` FK field's `Option`-ness,
defaulting to optional when no FK name is given). -/
def convertRelationTypeToSchemaWithInfo (ty : Ty) (fieldAttrs : Attrs)
    (parsedStruct : ItemStruct) (sourceModulePath : List String)
    (fieldName : String) : Option (ConvertedTy × RelationFieldInfo) :=
  match ty with
  | .path tySegs =>
    match tySegs.getLast? with
    | none => none
    | some segment =>
      match segment.args with
      | .angleBracketed args =>
        match args.head? with
        | some (.tyArg (.path innerSegs)) =>
          let segments := innerSegs.map PathSeg.ident
          let absoluteSegments :=
            resolveAbsoluteSegments segments sourceModulePath
          match segment.ident with
          | "HasOne" =>
            let fkField := extractBelongsToFromField fieldAttrs
            let isOptional :=
              (fkField.map (isFieldOptionalInStruct parsedStruct)).getD true
            let converted := if isOptional then ConvertedTy.optionBox
              absoluteSegments else ConvertedTy.boxPath absoluteSegments
            some (converted,
              { fieldName := fieldName, relationType := "HasOne",
                schemaPath := absoluteSegments, isOptional := isOptional,
                inlineTypeInfo := none })
          | "HasMany" =>
            some (ConvertedTy.vecPath absoluteSegments,
              { fieldName := fieldName, relationType := "HasMany",
                schemaPath := absoluteSegments, isOptional := false,
                inlineTypeInfo := none })
          | "BelongsTo" =>
            let fkField := extractBelongsToFromField fieldAttrs
            let isOptional :=
              (fkField.map (isFieldOptionalInStruct parsedStruct)).getD true
            let converted := if isOptional then ConvertedTy.optionBox
              absoluteSegments else ConvertedTy.boxPath absoluteSegments
            some (converted,
              { fieldName := fieldName, relationType := "BelongsTo",
                schemaPath := absoluteSegments, isOptional := isOptional,
                inlineTypeInfo := none })
          | _ => none
        | _ => none
      | _ => none
  | _ => none

/-- `detect_circular_fields`: scan the related definition's named fields
for relation types whose rendered form references the source module
(`<module>::Schema`, `<module>::Entity` or `<Module>Schema`); `HasMany`
fields are skipped. -/
def detectCircularFields (_sourceSchemaName : String)
    (sourceModulePath : List String)
    (relatedSchemaDef : Option ItemStruct) : List String :=
  match relatedSchemaDef with
  | none => []
  | some parsed =>
    let sourceModule := (sourceModulePath.getLast?).getD ""
    match parsed.fields with
    | .named fieldsNamed =>
      fieldsNamed.filterMap fun field =>
        match field.ident with
        | none => none
        | some fieldIdent =>
          let tyStr := renderTyNorm field.ty
          if strContains tyStr "HasMany<" then none
          else
            let isCircular :=
              (strContains tyStr "HasOne<" || strContains tyStr "BelongsTo<"
                  || strContains tyStr "Box<")
                && (strContains tyStr (sourceModule ++ "::Schema")
                  || strContains tyStr (sourceModule ++ "::Entity")
                  || strContains tyStr (capitalizeFirst sourceModule ++ "Schema"))
            if isCircular then some fieldIdent else none
    | _ => []

/-- `has_fk_relations`: any named field rendering to a `HasOne<` or
`BelongsTo<` form. -/
def hasFkRelations (modelDef : Option ItemStruct) : Bool :=
  match modelDef with
  | none => false
  | some parsed =>
    match parsed.fields with
    | .named fieldsNamed =>
      fieldsNamed.any fun field =>
        let tyStr := renderTyNorm field.ty
        strContains tyStr "HasOne<" || strContains tyStr "BelongsTo<"
    | _ => false

/-- Scan of `is_circular_relation_required`: fields whose name matches are
tried in order; a match whose rendered text shows an FK relation and whose
`from` field is located returns that field's non-`Option`-ness, any other
match lets the scan continue.  (The source renders `quote!(#field.ty)`,
interpolating the whole field and appending literal `.ty` tokens — the
rendering below mirrors that.) -/
def icrScan (allFields : List RsField) (circularFieldName : String) :
    List RsField → Bool
  | [] => false
  | f :: rest =>
    match f.ident with
    | none => icrScan allFields circularFieldName rest
    | some fid =>
      if fid != circularFieldName then icrScan allFields circularFieldName rest
      else
        let tyStr := renderFieldNorm f ++ ".ty"
        if strContains tyStr "HasOne<" || strContains tyStr "BelongsTo<" then
          match extractBelongsToFromField f.attrs with
          | some fk =>
            match allFields.find? (fun g => g.ident == some fk) with
            | some g => !isOptionType g.ty
            | none => icrScan allFields circularFieldName rest
          | none => icrScan allFields circularFieldName rest
        else icrScan allFields circularFieldName rest

/-- `is_circular_relation_required`: whether the named circular relation
field of the related definition is a required (`Box<T>`) relation, i.e.
its `from` FK field exists and is non-`Option`. -/
def isCircularRelationRequired (relatedModelDef : Option ItemStruct)
    (circularFieldName : String) : Bool :=
  match relatedModelDef with
  | none => false
  | some parsed =>
    match parsed.fields with
    | .named fieldsNamed => icrScan fieldsNamed circularFieldName fieldsNamed
    | _ => false

/-! ## Generated-code embedding

The `TokenStream`s the generator emits are embedded as structured trees
mirroring the `quote!` templates of relation.rs / codegen.rs. -/

/-- One field assignment inside an inline struct construction. -/
inductive InlineAssign where
  | copyVar (var field : String)
  | vecEmpty
  | noneVal
  | parentStub
  | defaultVal
deriving DecidableEq, Repr

/-- `generate_default_for_relation_field`: `HasMany` gets `vec![]`,
`HasOne`/`BelongsTo` get `None` when the FK is optional or unnamed and the
parent stub when required, anything else `Default::default()`. -/
def generateDefaultForRelationField (ty : Ty) (_fieldIdent : String)
    (fieldAttrs : Attrs) (allFields : List RsField) : InlineAssign :=
  let tyStr := renderTyNorm ty
  if strContains tyStr "HasMany<" then .vecEmpty
  else if strContains tyStr "HasOne<" || strContains tyStr "BelongsTo<" then
    let isOptional :=
      match extractBelongsToFromField fieldAttrs with
      | some fk =>
        allFields.any fun f => f.ident == some fk && isOptionType f.ty
      | none => true
    if isOptional then .noneVal else .parentStub
  else .defaultVal

/-- The inline construction expression used for a related row `r`. -/
inductive InlineConstruct where
  | structLit (target : List String) (assigns : List (String × InlineAssign))
  | fromConv (schemaPath : List String) (var : String)
  | defaultConv
deriving DecidableEq, Repr

/-- `generate_inline_struct_construction`: a struct literal over the
related definition's named non-skip fields, defaulting circular and
relation-typed fields, copying the rest from the row variable; falls back
to `From::from` when the definition cannot be parsed or has no named
fields. -/
def generateInlineStructConstruction (schemaPath : List String)
    (relatedSchemaDef : Option ItemStruct) (circularFields : List String)
    (varName : String) : InlineConstruct :=
  match relatedSchemaDef with
  | none => .fromConv schemaPath varName
  | some parsed =>
    match parsed.fields with
    | .named fieldsNamed =>
      let fieldAssignments := fieldsNamed.filterMap fun field =>
        match field.ident with
        | none => none
        | some fieldIdent =>
          if extractSkip field.attrs then none
          else if circularFields.contains fieldIdent
              || isSeaormRelationType field.ty then
            some (fieldIdent,
              generateDefaultForRelationField field.ty fieldIdent field.attrs
                fieldsNamed)
          else some (fieldIdent, InlineAssign.copyVar varName fieldIdent)
      .structLit schemaPath fieldAssignments
    | _ => .fromConv schemaPath varName

/-- `generate_inline_type_construction`: a literal of the synthesized
inline type over the included non-relation, non-skip fields; falls back to
`Default::default()` when the related definition cannot be parsed. -/
def generateInlineTypeConstruction (inlineTypeName : String)
    (includedFields : List String) (relatedModelDef : Option ItemStruct)
    (varName : String) : InlineConstruct :=
  match relatedModelDef with
  | none => .defaultConv
  | some parsed =>
    match parsed.fields with
    | .named fieldsNamed =>
      let fieldAssignments := fieldsNamed.filterMap fun field =>
        match field.ident with
        | none => none
        | some fieldIdent =>
          if extractSkip field.attrs then none
          else if isSeaormRelationType field.ty then none
          else if includedFields.contains fieldIdent then
            some (fieldIdent, InlineAssign.copyVar varName fieldIdent)
          else none
      .structLit [inlineTypeName] fieldAssignments
    | _ => .defaultConv

/-- `build_entity_path_from_schema_path`: every `Schema` segment becomes
`Entity`.  (The source round-trips the path through its rendered string;
on identifier segments that is the segment-wise mapping below.) -/
def buildEntityPathFromSchemaPath (schemaPath : List String)
    (_sourceModulePath : List String) : List String :=
  schemaPath.map fun s => if s == "Schema" then "Entity" else s

/-- A rendered module path, `quote!`-style without spaces. -/
def pathToStr (p : List String) : String := String.intercalate "::" p

/-! ## Construction-strategy generator (schema_macro/codegen.rs;
`generate_from_model_with_relations` appears verbatim again in
schema_macro/from_model.rs with `find_struct_from_schema_path` in place of
`find_model_from_schema_path` — both registry lookups are abstracted by
the `lookup` argument below, standing for the absent `file_lookup`
module). -/

structure FieldMapping where
  newIdent : String
  sourceIdent : String
  wrapped : Bool
  isRelation : Bool
deriving DecidableEq, Repr

/-- The error message of the generated
`sea_orm::DbErr::RecordNotFound(format!("Required relation '{}' not
found", stringify!(#source_ident)))` expression. -/
def reqMsg (src : String) : String :=
  "Required relation \x27" ++ src ++ "\x27 not found"

/-- The right-hand side of one generated field assignment, one constructor
per `quote!` template of the source. -/
inductive FieldCode where
  | copyField (src : String)
  | wrapSome (src : String)
  | defaultValue
  | mapBoxInline (src : String) (c : InlineConstruct)
  | requireInline (src : String) (c : InlineConstruct)
  | collectInline (src : String) (c : InlineConstruct)
  | matchFromModel (src : String) (schemaPath : List String)
  | requireFromModel (src : String) (schemaPath : List String)
  | mapBoxFrom (src : String) (schemaPath : List String)
  | requireFrom (src : String) (schemaPath : List String)
  | collectFrom (src : String) (schemaPath : List String)
deriving DecidableEq, Repr

/-- One parent-stub field assignment. -/
inductive StubAssign where
  | vecEmpty
  | noneVal
  | defaultVal
  | cloneModel (src : String)
deriving DecidableEq, Repr

inductive LoadKind where
  | one
  | many
  | skipLoad
deriving DecidableEq, Repr

structure LoadStmt where
  field : String
  entityPath : List String
  kind : LoadKind
deriving DecidableEq, Repr

/-- The generated `from_model` implementation: relation loads, an optional
parent stub, and the `Ok(Self { ... })` field assignments. -/
structure GeneratedImpl where
  typeName : String
  loads : List LoadStmt
  parentStub : Option (List (String × StubAssign))
  assignments : List (String × FieldCode)
deriving DecidableEq, Repr

/-- Schema path → related Model definition: render the path, rewrite
`::Schema` to `::Model`, look the string up in the file registry and parse
the stored definition. -/
def lookupRelatedDef (lookup : String → Option StructMetadata)
    (schemaPath : List String) : Option ItemStruct :=
  let schemaPathStr := pathToStr schemaPath
  let modelPathStr := replaceSub schemaPathStr "::Schema" "::Model"
  (lookup modelPathStr).bind (·.definition)

/-- One parent-stub assignment per field mapping: relation fields default
(`vec![]` for `HasMany`, `None` otherwise), other fields clone from the
model. -/
def generateStubAssign (relationFields : List RelationFieldInfo)
    (fm : FieldMapping) : String × StubAssign :=
  if fm.isRelation then
    match relationFields.find? (fun r => r.fieldName == fm.sourceIdent) with
    | some rel =>
      (fm.newIdent,
        if rel.relationType == "HasMany" then .vecEmpty else .noneVal)
    | none => (fm.newIdent, .defaultVal)
  else (fm.newIdent, .cloneModel fm.sourceIdent)

/-- The per-mapping body of the field-assignment loop of
`generate_from_model_with_relations`. -/
def generateFieldAssignment (lookup : String → Option StructMetadata)
    (newTypeName : String) (sourceModulePath : List String)
    (relationFields : List RelationFieldInfo) (fm : FieldMapping) :
    FieldCode :=
  if fm.isRelation then
    match relationFields.find? (fun r => r.fieldName == fm.sourceIdent) with
    | none => .defaultValue
    | some rel =>
      let relatedDef := lookupRelatedDef lookup rel.schemaPath
      let circularFields :=
        detectCircularFields newTypeName sourceModulePath relatedDef
      let hasCircular := !circularFields.isEmpty
      match rel.inlineTypeInfo with
      | some (inlineTypeName, includedFields) =>
        let inlineConstruct := generateInlineTypeConstruction inlineTypeName
          includedFields relatedDef "r"
        if rel.relationType == "HasOne" || rel.relationType == "BelongsTo" then
          if rel.isOptional then .mapBoxInline fm.sourceIdent inlineConstruct
          else .requireInline fm.sourceIdent inlineConstruct
        else if rel.relationType == "HasMany" then
          .collectInline fm.sourceIdent inlineConstruct
        else .defaultValue
      | none =>
        if rel.relationType == "HasOne" || rel.relationType == "BelongsTo" then
          if hasCircular then
            let inlineConstruct := generateInlineStructConstruction
              rel.schemaPath relatedDef circularFields "r"
            if rel.isOptional then .mapBoxInline fm.sourceIdent inlineConstruct
            else .requireInline fm.sourceIdent inlineConstruct
          else if hasFkRelations relatedDef then
            if rel.isOptional then .matchFromModel fm.sourceIdent rel.schemaPath
            else .requireFromModel fm.sourceIdent rel.schemaPath
          else if rel.isOptional then .mapBoxFrom fm.sourceIdent rel.schemaPath
          else .requireFrom fm.sourceIdent rel.schemaPath
        else if rel.relationType == "HasMany" then
          if hasCircular then
            .collectInline fm.sourceIdent
              (generateInlineStructConstruction rel.schemaPath relatedDef
                circularFields "r")
          else if hasFkRelations relatedDef then
            .collectInline fm.sourceIdent
              (generateInlineStructConstruction rel.schemaPath relatedDef []
                "r")
          else .collectFrom fm.sourceIdent rel.schemaPath
        else .defaultValue
  else if fm.wrapped then .wrapSome fm.sourceIdent
  else .copyField fm.sourceIdent

/-- `generate_from_model_with_relations`: relation loads, the
parent-stub decision and construction, and one assignment per field
mapping.  `_sourceType` and `_schemaStorage` only flow into the emitted
signature / are unused in the source. -/
def generateFromModelWithRelations (lookup : String → Option StructMetadata)
    (newTypeName : String) (_sourceType : Ty)
    (fieldMappings : List FieldMapping)
    (relationFields : List RelationFieldInfo)
    (sourceModulePath : List String)
    (_schemaStorage : List StructMetadata) : GeneratedImpl :=
  let relationLoads := relationFields.map fun rel =>
    let entityPath :=
      buildEntityPathFromSchemaPath rel.schemaPath sourceModulePath
    { field := rel.fieldName, entityPath := entityPath,
      kind :=
        if rel.relationType == "HasOne" || rel.relationType == "BelongsTo"
        then LoadKind.one
        else if rel.relationType == "HasMany" then LoadKind.many
        else LoadKind.skipLoad : LoadStmt }
  let needsParentStub := relationFields.any fun rel =>
    if rel.relationType != "HasMany" then false
    else if rel.inlineTypeInfo.isSome then false
    else
      match lookupRelatedDef lookup rel.schemaPath with
      | some parsedModel =>
        let circularFields := detectCircularFields newTypeName
          sourceModulePath (some parsedModel)
        circularFields.any fun cf =>
          isCircularRelationRequired (some parsedModel) cf
      | none => false
  let parentStubFields :=
    if needsParentStub then
      some (fieldMappings.map (generateStubAssign relationFields))
    else none
  let fieldAssignments := fieldMappings.map fun fm =>
    (fm.newIdent,
      generateFieldAssignment lookup newTypeName sourceModulePath
        relationFields fm)
  { typeName := newTypeName, loads := relationLoads,
    parentStub := parentStubFields, assignments := fieldAssignments }

/-! ## Evaluation semantics of the generated bridge

Rows and nested conversions are kept symbolic; what is evaluated is the
control flow the generated code performs on loaded relation data —
in particular the `ok_or_else(RecordNotFound(...))?` checks. -/

structure Row where
  tag : Nat
deriving DecidableEq, Repr

inductive DbErr where
  | recordNotFound (msg : String)
  | queryFailed (msg : String)
deriving DecidableEq, Repr

/-- The value a generated `let <field> = model.find_related(..)` binding
holds. -/
inductive Loaded where
  | one (v : Option Row)
  | many (vs : List Row)
  | unset
deriving DecidableEq, Repr

/-- The (symbolic) value of one generated field expression. -/
inductive OutVal where
  | copied (src : String)
  | someCopied (src : String)
  | defaulted
  | optNone
  | optSome (v : OutVal)
  | boxed (v : OutVal)
  | vecOf (vs : List OutVal)
  | constructed (c : InlineConstruct) (r : Row)
  | fromModelOf (schemaPath : List String) (r : Row)
  | fromOf (schemaPath : List String) (r : Row)

def envOne (env : String → Loaded) (s : String) : Option Row :=
  match env s with
  | .one v => v
  | _ => none

def envMany (env : String → Loaded) (s : String) : List Row :=
  match env s with
  | .many vs => vs
  | _ => []

/-- Evaluate one generated field assignment against the loaded-relation
environment.  Total: the generated expressions have no panicking path —
absence of a required relation is an `Err` value, not a panic. -/
def evalFieldCode (env : String → Loaded) : FieldCode → Except DbErr OutVal
  | .copyField src => .ok (.copied src)
  | .wrapSome src => .ok (.someCopied src)
  | .defaultValue => .ok .defaulted
  | .mapBoxInline src c =>
    .ok (match envOne env src with
      | some r => .optSome (.boxed (.constructed c r))
      | none => .optNone)
  | .requireInline src c =>
    match envOne env src with
    | some r => .ok (.boxed (.constructed c r))
    | none => .error (.recordNotFound (reqMsg src))
  | .collectInline src c =>
    .ok (.vecOf ((envMany env src).map (fun r => .constructed c r)))
  | .matchFromModel src p =>
    .ok (match envOne env src with
      | some r => .optSome (.boxed (.fromModelOf p r))
      | none => .optNone)
  | .requireFromModel src p =>
    match envOne env src with
    | some r => .ok (.boxed (.fromModelOf p r))
    | none => .error (.recordNotFound (reqMsg src))
  | .mapBoxFrom src p =>
    .ok (match envOne env src with
      | some r => .optSome (.boxed (.fromOf p r))
      | none => .optNone)
  | .requireFrom src p =>
    match envOne env src with
    | some r => .ok (.boxed (.fromOf p r))
    | none => .error (.recordNotFound (reqMsg src))
  | .collectFrom src p =>
    .ok (.vecOf ((envMany env src).map (fun r => .fromOf p r)))

/-- Evaluate the `Ok(Self { ... })` construction: the assignments in
order, with any `Err` propagating to the caller via `?`. -/
def evalAssignments (env : String → Loaded) :
    List (String × FieldCode) → Except DbErr (List (String × OutVal))
  | [] => .ok []
  | (n, fc) :: rest =>
    match evalFieldCode env fc with
    | .error e => .error e
    | .ok v =>
      match evalAssignments env rest with
      | .error e => .error e
      | .ok vs => .ok ((n, v) :: vs)

/-- The data-access handle: results of `find_related(..).one(db)` /
`.all(db)` per entity path. -/
structure Db where
  oneResult : List String → Except DbErr (Option Row)
  manyResult : List String → Except DbErr (List Row)

/-- Evaluate the generated relation-load statements in order, building the
binding list; any load error propagates via `?`. -/
def evalLoads (db : Db) : List LoadStmt → Except DbErr (List (String × Loaded))
  | [] => .ok []
  | l :: rest =>
    match l.kind with
    | .one =>
      match db.oneResult l.entityPath with
      | .error e => .error e
      | .ok v =>
        match evalLoads db rest with
        | .error e => .error e
        | .ok bs => .ok ((l.field, .one v) :: bs)
    | .many =>
      match db.manyResult l.entityPath with
      | .error e => .error e
      | .ok vs =>
        match evalLoads db rest with
        | .error e => .error e
        | .ok bs => .ok ((l.field, .many vs) :: bs)
    | .skipLoad => evalLoads db rest

/-- Sequential `let` bindings: a later binding shadows an earlier one. -/
def envOfList (bindings : List (String × Loaded)) : String → Loaded :=
  bindings.foldl (fun acc b => fun s => if s == b.fst then b.snd else acc s)
    (fun _ => Loaded.unset)

/-- Run the whole generated `from_model` body. -/
def evalImpl (db : Db) (impl : GeneratedImpl) :
    Except DbErr (List (String × OutVal)) :=
  match evalLoads db impl.loads with
  | .error e => .error e
  | .ok bindings => evalAssignments (envOfList bindings) impl.assignments

/-- Whether an inline construct delegates to another conversion rather
than building the value itself. -/
def InlineConstruct.delegates : InlineConstruct → Bool
  | .fromConv _ _ => true
  | _ => false

/-- Whether a generated field assignment delegates to another type's
conversion (`from_model` or `From::from`); a delegation-free assignment
evaluates without recursing into any other bridge. -/
def FieldCode.delegates : FieldCode → Bool
  | .matchFromModel _ _ => true
  | .requireFromModel _ _ => true
  | .mapBoxFrom _ _ => true
  | .requireFrom _ _ => true
  | .collectFrom _ _ => true
  | .mapBoxInline _ c => c.delegates
  | .requireInline _ c => c.delegates
  | .collectInline _ c => c.delegates
  | _ => false

/-! ## Filtered struct schema (generate_filtered_schema, codegen.rs)

The source emits a `TokenStream` that, when compiled and run, builds a
`Schema` value; the embedding produces that `Schema` directly.  The
property and required lists are computed at generation time exactly as in
the source loop. -/

/-- The field loop of `generate_filtered_schema`: per non-skipped field
surviving the omit/pick filters (which test both the Rust and the renamed
name), one property entry, plus a required entry iff the field is
non-`Option`, has no default annotation and no conditional-skip
annotation. -/
def gfsGo (renameAll : Option String) (omitSet pickSet : List String)
    (knownSchemas structDefinitions : KnownMap) :
    List RsField → List (String × SchemaRef) × List String
  | [] => ([], [])
  | field :: rest =>
    if extractSkip field.attrs then
      gfsGo renameAll omitSet pickSet knownSchemas structDefinitions rest
    else
      let rustFieldName := stripRaw ((field.ident).getD "unknown")
      let fieldName :=
        match extractFieldRename field.attrs with
        | some renamed => renamed
        | none => renameField rustFieldName renameAll
      if !omitSet.isEmpty
          && (omitSet.contains rustFieldName || omitSet.contains fieldName) then
        gfsGo renameAll omitSet pickSet knownSchemas structDefinitions rest
      else if !pickSet.isEmpty && !pickSet.contains rustFieldName
          && !pickSet.contains fieldName then
        gfsGo renameAll omitSet pickSet knownSchemas structDefinitions rest
      else
        let schemaRef :=
          parseTypeToSchemaRef field.ty knownSchemas structDefinitions
        let restResult :=
          gfsGo renameAll omitSet pickSet knownSchemas structDefinitions rest
        let hasDefault := extractDefaultIsSome field.attrs
        let hasSkipSerializingIf := extractSkipSerializingIf field.attrs
        let isOptional := isOptionType field.ty
        ((fieldName, schemaRef) :: restResult.1,
          if !isOptional && !hasDefault && !hasSkipSerializingIf then
            fieldName :: restResult.2
          else restResult.2)

/-- `generate_filtered_schema` (the `Schema` the emitted code builds):
object schema whose properties are the surviving fields' schemas inserted
into a `BTreeMap` in emission order, and whose `required` list is exactly
the surviving non-`Option`, default-free, conditional-skip-free field
names in declaration order (`None` when empty). -/
def generateFilteredSchema (structItem : ItemStruct)
    (omitSet pickSet : List String)
    (schemaStorage : List StructMetadata) : Schema :=
  let renameAll := extractRenameAll structItem.attrs
  let knownSchemas : KnownMap := schemaStorage.map fun s =>
    (s.name, s.definition)
  let structDefinitions := knownSchemas
  let lists :=
    match structItem.fields with
    | .named fieldsNamed =>
      gfsGo renameAll omitSet pickSet knownSchemas structDefinitions
        fieldsNamed
    | _ => ([], [])
  let propsMap := lists.1.foldl
    (fun m (kv : String × SchemaRef) => btreeInsert m kv.1 kv.2) []
  Schema.mk none (some .object) none none none none
    (if propsMap.isEmpty then none else some propsMap)
    (if lists.2.isEmpty then none else some lists.2)
    none none none none none none


/-- The field a `from = "..."` name resolves to inside a structure, as
`is_field_optional_in_struct` locates it (first named field with matching
identifier). -/
def locateNamedField (s : ItemStruct) (name : String) : Option RsField :=
  match s.fields with
  | .named fs => fs.find? (fun f => f.ident == some name)
  | _ => none

/-! ## Concrete instances used by counterexamples and witnesses -/

def tyT : Ty := .path [.mk "T" .noArgs]

def tyI32 : Ty := .path [.mk "i32" .noArgs]

def tyStr : Ty := .path [.mk "String" .noArgs]

def tyVecOptionOf (x : Ty) : Ty :=
  .path [.mk "Vec" (.angleBracketed
    [.tyArg (.path [.mk "Option" (.angleBracketed [.tyArg x])])])]

/-- `enum Empty {}`. -/
def emptyEnum : ItemEnum := { ident := "Empty", attrs := {}, variants := [] }

/-- `#[serde(rename_all = "kebab-case")] enum Status { #[serde(rename =
"ok-status")] Ok, ErrorCode }` — the unit-enum test case of
enum_schema.rs. -/
def statusEnum : ItemEnum :=
  { ident := "Status", attrs := { renameAll := some "kebab-case" },
    variants := [
      { ident := "Ok", attrs := { rename := some "ok-status" },
        fields := .unit },
      { ident := "ErrorCode", attrs := {}, fields := .unit }] }

/-- `enum Mixed { Ready, Data(String) }` — the mixed-enum test case. -/
def mixedEnum : ItemEnum :=
  { ident := "Mixed", attrs := {},
    variants := [
      { ident := "Ready", attrs := {}, fields := .unit },
      { ident := "Data", attrs := {},
        fields := .unnamed [{ ident := none, attrs := {}, ty := tyStr }] }] }

/-- A structure whose only named field is `id: i32` — in particular it has
no field named `missing_fk`. -/
def c2Struct : ItemStruct :=
  { ident := "S", attrs := {},
    fields := .named [{ ident := some "id", attrs := {}, ty := tyI32 }] }

/-- `BelongsTo<super::user::Entity>`. -/
def belongsToUserEntity : Ty :=
  .path [.mk "BelongsTo" (.angleBracketed [.tyArg
    (.path [.mk "super" .noArgs, .mk "user" .noArgs, .mk "Entity" .noArgs])])]

/-- `#[sea_orm(belongs_to, from = "missing_fk")]` — names an FK field the
structure does not have. -/
def c2Attrs : Attrs := { seaOrmFrom := some "missing_fk" }

/-- The conversion result of the missing-FK counterexample: the relation
comes out REQUIRED (`Box<Schema>`). -/
def c2Conv : ConvertedTy := .boxPath ["crate", "models", "user", "Schema"]

def c2Info : RelationFieldInfo :=
  { fieldName := "user", relationType := "BelongsTo",
    schemaPath := ["crate", "models", "user", "Schema"],
    isOptional := false, inlineTypeInfo := none }

/-- The idiomatic tuple binding `Path((a, b)): Path<(String, String)>`:
the pattern is a tuple-struct whose single element is a tuple pattern, not
an identifier. -/
def c3Arg : FnArg :=
  .typed (.tupleStruct [.tuplePat [.ident "a", .ident "b"]])
    (.path [.mk "Path" (.angleBracketed [.tyArg (.tuple [tyStr, tyStr])])])

/-- `params: Path<(String, i32)>` (identifier binding). -/
def c3GoodArg : FnArg :=
  .typed (.ident "params")
    (.path [.mk "Path" (.angleBracketed [.tyArg (.tuple [tyStr, tyI32])])])

/-- `Path(id): Path<i32>`. -/
def c5Arg : FnArg :=
  .typed (.tupleStruct [.ident "id"])
    (.path [.mk "Path" (.angleBracketed [.tyArg tyI32])])

/-- The single parameter the classifier yields for `c5Arg` against the
placeholder list `["item_id"]`. -/
def c5Param : Parameter :=
  mkParam "item_id" .path true (parseTypeToSchemaRefWithSchemas tyI32 [] [])

/-- The related `Model` of the two-hop cycle witness: `memo::Model` with a
required `BelongsTo` back-reference to `user` via the non-optional FK
`user_id`. -/
def memoModel : ItemStruct :=
  { ident := "Model", attrs := {},
    fields := .named [
      { ident := some "id", attrs := {}, ty := tyI32 },
      { ident := some "user_id", attrs := {}, ty := tyI32 },
      { ident := some "user", attrs := { seaOrmFrom := some "user_id" },
        ty := belongsToUserEntity }] }

/-- File registry of the witness: only `crate::models::memo::Model` is
known. -/
def memoLookup : String → Option StructMetadata := fun s =>
  if s == "crate::models::memo::Model" then
    some { name := "Model", modulePath := "crate::models::memo",
           filePath := "src/models/memo.rs", definition := some memoModel }
  else none

/-- `UserSchema`'s relation field `memos: HasMany<memo::Entity>` as
analyzed by the relation pass. -/
def memosRel : RelationFieldInfo :=
  { fieldName := "memos", relationType := "HasMany",
    schemaPath := ["crate", "models", "memo", "Schema"],
    isOptional := false, inlineTypeInfo := none }

def userMappings : List FieldMapping :=
  [{ newIdent := "id", sourceIdent := "id", wrapped := false,
     isRelation := false },
   { newIdent := "memos", sourceIdent := "memos", wrapped := false,
     isRelation := true }]

/-- `MemoSchema`'s required relation field `user` with no related
definition in the registry (sync `From` conversion branch). -/
def userRel : RelationFieldInfo :=
  { fieldName := "user", relationType := "BelongsTo",
    schemaPath := ["crate", "models", "user", "Schema"],
    isOptional := false, inlineTypeInfo := none }

def memoMappings : List FieldMapping :=
  [{ newIdent := "id", sourceIdent := "id", wrapped := false,
     isRelation := false },
   { newIdent := "user", sourceIdent := "user", wrapped := false,
     isRelation := true }]

/-- An environment in which the loaded `user` relation came back empty. -/
def absentUserEnv : String → Loaded := fun s =>
  if s == "user" then .one none else .unset

/-- The emitted name of a field of `generate_filtered_schema`: explicit
rename, else the container policy applied to the raw-stripped identifier.
Reference form for the required-list characterization. -/
def gfsEmitName (renameAll : Option String) (f : RsField) : String :=
  match extractFieldRename f.attrs with
  | some renamed => renamed
  | none => renameField (stripRaw ((f.ident).getD "unknown")) renameAll

/-- Whether a field survives the skip/omit/pick filters of
`generate_filtered_schema` (both the Rust name and the emitted name are
tested against the filter sets). -/
def gfsIncluded (renameAll : Option String) (omitSet pickSet : List String)
    (f : RsField) : Bool :=
  !extractSkip f.attrs
    && !(!omitSet.isEmpty
      && (omitSet.contains (stripRaw ((f.ident).getD "unknown"))
        || omitSet.contains (gfsEmitName renameAll f)))
    && !(!pickSet.isEmpty
      && !pickSet.contains (stripRaw ((f.ident).getD "unknown"))
      && !pickSet.contains (gfsEmitName renameAll f))

/-- The required-ness predicate of `generate_filtered_schema`: not
`Option`, no default annotation, no conditional-skip annotation. -/
def gfsRequiredPred (f : RsField) : Bool :=
  !isOptionType f.ty && !extractDefaultIsSome f.attrs
    && !extractSkipSerializingIf f.attrs

/-- Fields exercising every required-ness case:
`{ id: i32, owner: Option<String>, note: String (default), tag: String
(skip_serializing_if), secret: String (skip) }`. -/
def c6Fields : List RsField :=
  [{ ident := some "id", attrs := {}, ty := tyI32 },
   { ident := some "owner", attrs := {},
     ty := .path [.mk "Option" (.angleBracketed [.tyArg tyStr])] },
   { ident := some "note", attrs := { hasDefault := true }, ty := tyStr },
   { ident := some "tag", attrs := { skipSerializingIf := true },
     ty := tyStr },
   { ident := some "secret", attrs := { skip := true }, ty := tyStr }]

def c6Struct : ItemStruct :=
  { ident := "Item", attrs := {}, fields := .named c6Fields }

/-- A default-less value for list indexing in theorem statements. -/
def dummyTy : Ty := .verbatim ""

/-- Default-marked assignments (everything an inline construction uses for
a relation-typed or circular field): not a copy from the row. -/
def InlineAssign.isDefaultLike : InlineAssign → Bool
  | .copyVar _ _ => false
  | _ => true

/-! ## Theorems -/

theorem findIdx?_eq_none_of_not_contains (ps : List String) (i : String)
    (h : ps.contains i = false) : ps.findIdx? (fun p => p == i) = none := by
  induction ps with
  | nil => rfl
  | cons p rest ih =>
    simp only [List.contains_cons, Bool.or_eq_false_iff] at h
    rw [List.findIdx?_cons]
    have hp : (p == i) = false := by
      cases hpi : p == i with
      | false => rfl
      | true => simp [BEq.comm] at hpi; simp [hpi] at h
    simp [hp, List.findIdx?_succ, ih h.2]

mutual

theorem substituteType_of_not_mentions :
    ∀ (t : Ty) (ps : List String) (cs : List Ty),
      tyMentions ps t = false → substituteType t ps cs = t
  | .path [], _, _, _ => by simp [substituteType]
  | .path (PathSeg.mk i .noArgs :: []), ps, cs, h => by
    simp only [tyMentions, segListMentions, pathArgsMentions,
      Bool.or_eq_false_iff] at h
    have hf : ps.findIdx? (fun p => p == i) = none :=
      findIdx?_eq_none_of_not_contains ps i h.1.1
    simp [substituteType, hf, substSegList, substPathArgs]
  | .path (PathSeg.mk i .noArgs :: s2 :: rest), ps, cs, h => by
    have hm : segListMentions ps (PathSeg.mk i .noArgs :: s2 :: rest) = false := by
      simpa [tyMentions] using h
    simp [substituteType,
      substSegList_of_not_mentions (PathSeg.mk i .noArgs :: s2 :: rest) ps cs hm]
  | .path (PathSeg.mk i (.angleBracketed as) :: rest), ps, cs, h => by
    have hm : segListMentions ps (PathSeg.mk i (.angleBracketed as) :: rest) = false := by
      simpa [tyMentions] using h
    simp [substituteType,
      substSegList_of_not_mentions (PathSeg.mk i (.angleBracketed as) :: rest) ps cs hm]
  | .path (PathSeg.mk i (.parenthesized r) :: rest), ps, cs, h => by
    have hm : segListMentions ps (PathSeg.mk i (.parenthesized r) :: rest) = false := by
      simpa [tyMentions] using h
    simp [substituteType,
      substSegList_of_not_mentions (PathSeg.mk i (.parenthesized r) :: rest) ps cs hm]
  | .reference lt m elem, ps, cs, h => by
    have he : tyMentions ps elem = false := by simpa [tyMentions] using h
    simp [substituteType, substituteType_of_not_mentions elem ps cs he]
  | .slice elem, ps, cs, h => by
    have he : tyMentions ps elem = false := by simpa [tyMentions] using h
    simp [substituteType, substituteType_of_not_mentions elem ps cs he]
  | .array elem len, ps, cs, h => by
    have he : tyMentions ps elem = false := by simpa [tyMentions] using h
    simp [substituteType, substituteType_of_not_mentions elem ps cs he]
  | .tuple elems, ps, cs, h => by
    have he : tyListMentions ps elems = false := by simpa [tyMentions] using h
    simp [substituteType, substTyList_of_not_mentions elems ps cs he]
  | .bareFn r, _, _, _ => by simp [substituteType]
  | .traitObject r, _, _, _ => by simp [substituteType]
  | .verbatim r, _, _, _ => by simp [substituteType]

theorem substTyList_of_not_mentions :
    ∀ (ts : List Ty) (ps : List String) (cs : List Ty),
      tyListMentions ps ts = false → substTyList ts ps cs = ts
  | [], _, _, _ => by simp [substTyList]
  | t :: rest, ps, cs, h => by
    simp only [tyListMentions, Bool.or_eq_false_iff] at h
    simp [substTyList, substituteType_of_not_mentions t ps cs h.1,
      substTyList_of_not_mentions rest ps cs h.2]

theorem substSegList_of_not_mentions :
    ∀ (segs : List PathSeg) (ps : List String) (cs : List Ty),
      segListMentions ps segs = false → substSegList segs ps cs = segs
  | [], _, _, _ => by simp [substSegList]
  | PathSeg.mk i a :: rest, ps, cs, h => by
    simp only [segListMentions, Bool.or_eq_false_iff] at h
    simp [substSegList, substPathArgs_of_not_mentions a ps cs h.1.2,
      substSegList_of_not_mentions rest ps cs h.2]

theorem substPathArgs_of_not_mentions :
    ∀ (a : PathArgs) (ps : List String) (cs : List Ty),
      pathArgsMentions ps a = false → substPathArgs a ps cs = a
  | .noArgs, _, _, _ => by simp [substPathArgs]
  | .parenthesized _, _, _, _ => by simp [substPathArgs]
  | .angleBracketed as, ps, cs, h => by
    have hm : genArgListMentions ps as = false := by simpa [pathArgsMentions] using h
    simp [substPathArgs, substGenArgList_of_not_mentions as ps cs hm]

theorem substGenArgList_of_not_mentions :
    ∀ (as : List GenArg) (ps : List String) (cs : List Ty),
      genArgListMentions ps as = false → substGenArgList as ps cs = as
  | [], _, _, _ => by simp [substGenArgList]
  | .tyArg t :: rest, ps, cs, h => by
    simp only [genArgListMentions, Bool.or_eq_false_iff] at h
    simp [substGenArgList, substituteType_of_not_mentions t ps cs h.1,
      substGenArgList_of_not_mentions rest ps cs h.2]
  | .lifetime n :: rest, ps, cs, h => by
    have hm : genArgListMentions ps rest = false := by
      simpa [genArgListMentions] using h
    simp [substGenArgList, substGenArgList_of_not_mentions rest ps cs hm]
  | .otherArg r :: rest, ps, cs, h => by
    have hm : genArgListMentions ps rest = false := by
      simpa [genArgListMentions] using h
    simp [substGenArgList, substGenArgList_of_not_mentions rest ps cs hm]

end

/-- C9: `substitute_type` on `Vec<Option<T>>` with parameter list `["T"]`
and a concrete type `X` yields `Vec<Option<X>>`; a type in which none of
the listed parameter names occur — including the non-substitutable
function-type and trait-object forms — is returned unchanged, and
substitution is idempotent on such types. -/
theorem c9_substitute_type_roundtrip :
    (∀ x : Ty, substituteType (tyVecOptionOf tyT) ["T"] [x] = tyVecOptionOf x)
    ∧ (∀ (t : Ty) (ps : List String) (cs : List Ty),
        tyMentions ps t = false → substituteType t ps cs = t)
    ∧ (∀ (r : String) (ps : List String) (cs : List Ty),
        substituteType (Ty.bareFn r) ps cs = Ty.bareFn r
          ∧ substituteType (Ty.traitObject r) ps cs = Ty.traitObject r)
    ∧ (∀ (t : Ty) (ps : List String) (cs : List Ty),
        tyMentions ps t = false →
          substituteType (substituteType t ps cs) ps cs
            = substituteType t ps cs) := by
  refine ⟨?_, ?_, ?_, ?_⟩
  · intro x
    simp [tyVecOptionOf, tyT, substituteType, substSegList, substPathArgs,
      substGenArgList, List.findIdx?]
  · exact fun t ps cs h => substituteType_of_not_mentions t ps cs h
  · intro r ps cs
    exact ⟨by simp [substituteType], by simp [substituteType]⟩
  · intro t ps cs h
    rw [substituteType_of_not_mentions t ps cs h,
      substituteType_of_not_mentions t ps cs h]

/-- C9 witness: `String` mentions no parameter named `T`, and substituting
into it returns it unchanged. -/
theorem c9_substitute_type_roundtrip_witness :
    tyMentions ["T"] tyStr = false
    ∧ substituteType tyStr ["T"] [tyT] = tyStr :=
  ⟨by decide, c9_substitute_type_roundtrip.2.1 tyStr ["T"] [tyT] (by decide)⟩

/-- C7 counterexample: `enum Empty {}` is vacuously unit-only, yet the
derived schema has NO `enum` array at all (the source stores `None` for an
empty value list), so no enum array of length equal to the (zero) variant
count exists. -/
theorem c7_counterexample_empty_enum :
    emptyEnum.variants.all isUnitVariant = true
    ∧ (parseEnumToSchema emptyEnum [] []).schemaType = some .string
    ∧ (parseEnumToSchema emptyEnum [] []).enumVals = none := by
  refine ⟨by decide, by decide, by decide⟩

/-- C7 (amended): for every enum whose variants are all unit variants and
which has AT LEAST ONE variant, `parse_enum_to_schema` yields a schema
with `type = string` and an enum array of length equal to the variant
count whose entry for each variant is its name under the rename pipeline:
a variant-level rename wins over the container `rename_all` policy, which
wins over the (raw-stripped) identity name.  (A zero-variant enum instead
stores no enum array.) -/
theorem c7_unit_enum_schema (enumItem : ItemEnum)
    (knownSchemas structDefinitions : KnownMap)
    (hUnit : enumItem.variants.all isUnitVariant = true)
    (hNe : enumItem.variants ≠ []) :
    (parseEnumToSchema enumItem knownSchemas structDefinitions).schemaType
      = some .string
    ∧ (parseEnumToSchema enumItem knownSchemas structDefinitions).enumVals
      = some (enumItem.variants.map
          (variantKey (extractRenameAll enumItem.attrs)))
    ∧ (enumItem.variants.map
        (variantKey (extractRenameAll enumItem.attrs))).length
      = enumItem.variants.length
    ∧ ∀ v ∈ enumItem.variants,
        (∀ r, extractFieldRename v.attrs = some r →
          variantKey (extractRenameAll enumItem.attrs) v = r)
        ∧ (extractFieldRename v.attrs = none →
          variantKey (extractRenameAll enumItem.attrs) v
            = renameField (stripRaw v.ident) (extractRenameAll enumItem.attrs))
        ∧ (extractFieldRename v.attrs = none
            → extractRenameAll enumItem.attrs = none
            → variantKey (extractRenameAll enumItem.attrs) v
              = stripRaw v.ident) := by
  obtain ⟨v0, vs, hcons⟩ := List.exists_cons_of_ne_nil hNe
  refine ⟨?_, ?_, by simp, ?_⟩
  · simp only [parseEnumToSchema]
    rw [hUnit]
    simp [Schema.schemaType]
  · simp only [parseEnumToSchema]
    rw [hUnit]
    simp [Schema.enumVals, hcons]
  · intro v _
    refine ⟨?_, ?_, ?_⟩
    · intro r hr; simp [variantKey, hr]
    · intro hr; simp [variantKey, hr]
    · intro hr hall; simp [variantKey, hr, hall, renameField]

/-- C7 witness: the kebab-case `Status` enum with a per-variant rename. -/
theorem c7_unit_enum_schema_witness :
    statusEnum.variants.all isUnitVariant = true
    ∧ statusEnum.variants ≠ []
    ∧ (parseEnumToSchema statusEnum [] []).enumVals
      = some ["ok-status", "error-code"] := by
  refine ⟨by decide, by simp [statusEnum], ?_⟩
  have h := (c7_unit_enum_schema statusEnum [] [] (by decide)
    (by simp [statusEnum])).2.1
  rw [h]
  decide

/-- C8: for every enum with at least one non-unit variant,
`parse_enum_to_schema` yields a schema with no top-level `type` and a
`one_of` array with exactly one entry per variant, in declaration order
(entry `i` is the schema of variant `i`). -/
theorem c8_mixed_enum_one_of (enumItem : ItemEnum)
    (knownSchemas structDefinitions : KnownMap)
    (hMixed : enumItem.variants.any (fun v => !isUnitVariant v) = true) :
    (parseEnumToSchema enumItem knownSchemas structDefinitions).schemaType
      = none
    ∧ (parseEnumToSchema enumItem knownSchemas structDefinitions).oneOf
      = some (enumItem.variants.map fun v =>
          SchemaRef.inline (mixedVariantSchema knownSchemas structDefinitions
            (extractRenameAll enumItem.attrs) v))
    ∧ (enumItem.variants.map fun v =>
          SchemaRef.inline (mixedVariantSchema knownSchemas structDefinitions
            (extractRenameAll enumItem.attrs) v)).length
      = enumItem.variants.length := by
  have hAllFalse : enumItem.variants.all isUnitVariant = false := by
    cases hall : enumItem.variants.all isUnitVariant with
    | false => rfl
    | true =>
      exfalso
      rcases List.any_eq_true.mp hMixed with ⟨v, hv, hnv⟩
      have := List.all_eq_true.mp hall v hv
      simp [this] at hnv
  have hne : enumItem.variants ≠ [] := by
    rcases List.any_eq_true.mp hMixed with ⟨v, hv, _⟩
    exact fun h => by simp [h] at hv
  obtain ⟨v0, vs, hcons⟩ := List.exists_cons_of_ne_nil hne
  refine ⟨?_, ?_, by simp⟩
  · simp only [parseEnumToSchema]
    rw [hAllFalse]
    simp [Schema.schemaType]
  · simp only [parseEnumToSchema]
    rw [hAllFalse]
    simp [Schema.oneOf, hcons]

/-- C8 witness: `enum Mixed { Ready, Data(String) }` has no top-level type
and a two-entry `one_of`. -/
theorem c8_mixed_enum_one_of_witness :
    mixedEnum.variants.any (fun v => !isUnitVariant v) = true
    ∧ (parseEnumToSchema mixedEnum [] []).schemaType = none
    ∧ (parseEnumToSchema mixedEnum [] []).oneOf
      = some (mixedEnum.variants.map fun v =>
          SchemaRef.inline (mixedVariantSchema [] []
            (extractRenameAll mixedEnum.attrs) v)) := by
  have h := c8_mixed_enum_one_of mixedEnum [] [] (by decide)
  exact ⟨by decide, h.1, h.2.1⟩

/-- C2 counterexample: a `BelongsTo` field annotated `from =
"missing_fk"` on a structure with no such field converts to a REQUIRED
relation (`is_optional = false`), where the claim demands a default to
optional when the FK field cannot be located. -/
theorem c2_counterexample_missing_fk :
    ((convertRelationTypeToSchemaWithInfo belongsToUserEntity c2Attrs
        c2Struct ["crate", "models", "memo"] "user").map
      (fun p => p.2.isOptional)) = some false
    ∧ (locateNamedField c2Struct "missing_fk").isNone = true := by
  exact ⟨by decide, by decide⟩

/-- C2 (amended): for every relation field processed by
`convert_relation_type_to_schema_with_info`: `HasMany` is never optional;
`HasOne`/`BelongsTo` are optional iff the `from = "..."` annotation is
absent, or it names a field located in the structure whose type is
`Option`; when the annotation names a field that CANNOT be located, the
locate helper reports non-optional and the relation becomes REQUIRED (not
optional). -/
theorem c2_relation_optionality (ty : Ty) (fieldAttrs : Attrs)
    (parsedStruct : ItemStruct) (sourceModulePath : List String)
    (fieldName : String) (conv : ConvertedTy) (info : RelationFieldInfo)
    (h : convertRelationTypeToSchemaWithInfo ty fieldAttrs parsedStruct
      sourceModulePath fieldName = some (conv, info)) :
    (info.relationType = "HasMany" ∨ info.relationType = "HasOne"
      ∨ info.relationType = "BelongsTo")
    ∧ (info.relationType = "HasMany" →
        info.isOptional = false ∧ conv = ConvertedTy.vecPath info.schemaPath)
    ∧ ((info.relationType = "HasOne" ∨ info.relationType = "BelongsTo") →
        (extractBelongsToFromField fieldAttrs = none → info.isOptional = true)
        ∧ (∀ fk, extractBelongsToFromField fieldAttrs = some fk →
            info.isOptional = isFieldOptionalInStruct parsedStruct fk)
        ∧ conv = (if info.isOptional then ConvertedTy.optionBox info.schemaPath
            else ConvertedTy.boxPath info.schemaPath))
    ∧ (∀ fk f, locateNamedField parsedStruct fk = some f →
        isFieldOptionalInStruct parsedStruct fk = isOptionType f.ty)
    ∧ (∀ fk, locateNamedField parsedStruct fk = none →
        isFieldOptionalInStruct parsedStruct fk = false) := by
  have hloc : ∀ fk f, locateNamedField parsedStruct fk = some f →
      isFieldOptionalInStruct parsedStruct fk = isOptionType f.ty := by
    intro fk f hf
    unfold locateNamedField at hf
    unfold isFieldOptionalInStruct
    obtain ⟨si, sa, sf⟩ := parsedStruct
    cases sf with
    | named fs =>
      dsimp only at hf ⊢
      rw [hf]
    | unnamed fs => simp at hf
    | unit => simp at hf
  have hlocn : ∀ fk, locateNamedField parsedStruct fk = none →
      isFieldOptionalInStruct parsedStruct fk = false := by
    intro fk hf
    unfold locateNamedField at hf
    unfold isFieldOptionalInStruct
    obtain ⟨si, sa, sf⟩ := parsedStruct
    cases sf with
    | named fs =>
      dsimp only at hf ⊢
      rw [hf]
    | unnamed fs => rfl
    | unit => rfl
  simp only [convertRelationTypeToSchemaWithInfo] at h
  split at h
  case h_2 => exact absurd h (by simp)
  case h_1 tySegs =>
  split at h
  case h_1 => exact absurd h (by simp)
  case h_2 segment hlast =>
  split at h
  case h_2 => exact absurd h (by simp)
  case h_1 args hargs =>
  split at h
  case h_2 => exact absurd h (by simp)
  case h_1 innerSegs hhead =>
  split at h
  case h_4 => exact absurd h (by simp)
  case h_1 hident =>
    rw [Option.some_inj, Prod.ext_iff] at h
    obtain ⟨hconv, hinfo⟩ := h
    dsimp only at hconv hinfo
    subst hinfo
    refine ⟨by simp, ?_, ?_, hloc, hlocn⟩
    · intro habs; exact absurd habs (by simp)
    · intro _
      refine ⟨?_, ?_, ?_⟩
      · intro he; simp [he]
      · intro fk he; simp [he]
      · dsimp only
        rw [← hconv]
  case h_2 hident =>
    rw [Option.some_inj, Prod.ext_iff] at h
    obtain ⟨hconv, hinfo⟩ := h
    dsimp only at hconv hinfo
    subst hinfo
    refine ⟨by simp, ?_, ?_, hloc, hlocn⟩
    · intro _
      exact ⟨rfl, by dsimp only; rw [← hconv]⟩
    · intro habs
      rcases habs with habs | habs <;> exact absurd habs (by simp)
  case h_3 hident =>
    rw [Option.some_inj, Prod.ext_iff] at h
    obtain ⟨hconv, hinfo⟩ := h
    dsimp only at hconv hinfo
    subst hinfo
    refine ⟨by simp, ?_, ?_, hloc, hlocn⟩
    · intro habs; exact absurd habs (by simp)
    · intro _
      refine ⟨?_, ?_, ?_⟩
      · intro he; simp [he]
      · intro fk he; simp [he]
      · dsimp only
        rw [← hconv]

/-- C2 witness: the missing-FK `BelongsTo` instance, where the relation is
classified as `BelongsTo` and required. -/
theorem c2_relation_optionality_witness :
    convertRelationTypeToSchemaWithInfo belongsToUserEntity c2Attrs c2Struct
      ["crate", "models", "memo"] "user" = some (c2Conv, c2Info)
    ∧ (c2Info.relationType = "HasMany" ∨ c2Info.relationType = "HasOne"
        ∨ c2Info.relationType = "BelongsTo") :=
  ⟨by decide,
    (c2_relation_optionality belongsToUserEntity c2Attrs c2Struct
      ["crate", "models", "memo"] "user" c2Conv c2Info (by decide)).1⟩

theorem gfsGo_snd (renameAll : Option String) (omitSet pickSet : List String)
    (knownSchemas structDefinitions : KnownMap) :
    ∀ fs : List RsField,
      (gfsGo renameAll omitSet pickSet knownSchemas structDefinitions fs).2
        = ((fs.filter (gfsIncluded renameAll omitSet pickSet)).filter
            gfsRequiredPred).map (gfsEmitName renameAll)
  | [] => by simp [gfsGo]
  | field :: rest => by
    have ih := gfsGo_snd renameAll omitSet pickSet knownSchemas
      structDefinitions rest
    simp only [gfsGo]
    split
    case isTrue hskip =>
      have hinc : gfsIncluded renameAll omitSet pickSet field = false := by
        unfold gfsIncluded
        rw [hskip]
        rfl
      rw [List.filter_cons, hinc]
      simpa using ih
    case isFalse hskip =>
      split
      case isTrue homit =>
        have hinc : gfsIncluded renameAll omitSet pickSet field = false := by
          unfold gfsIncluded gfsEmitName
          rw [homit]
          simp
        rw [List.filter_cons, hinc]
        simpa using ih
      case isFalse homit =>
        split
        case isTrue hpick =>
          have hinc : gfsIncluded renameAll omitSet pickSet field = false := by
            unfold gfsIncluded gfsEmitName
            rw [hpick]
            simp
          rw [List.filter_cons, hinc]
          simpa using ih
        case isFalse hpick =>
          have hinc : gfsIncluded renameAll omitSet pickSet field = true := by
            unfold gfsIncluded
            cases hb1 : extractSkip field.attrs with
            | true => exact absurd hb1 hskip
            | false =>
              cases hb2 : (!omitSet.isEmpty
                  && (omitSet.contains (stripRaw ((field.ident).getD "unknown"))
                    || omitSet.contains (gfsEmitName renameAll field))) with
              | true =>
                exact absurd (by simpa only [gfsEmitName] using hb2) homit
              | false =>
                cases hb3 : (!pickSet.isEmpty
                    && !pickSet.contains
                      (stripRaw ((field.ident).getD "unknown"))
                    && !pickSet.contains (gfsEmitName renameAll field)) with
                | true =>
                  exact absurd (by simpa only [gfsEmitName] using hb3) hpick
                | false => decide
          rw [List.filter_cons, hinc]
          simp only [reduceIte]
          rw [List.filter_cons]
          by_cases hreq : gfsRequiredPred field = true
          · have hreq2 := hreq
            unfold gfsRequiredPred at hreq2
            rw [if_pos hreq, if_pos hreq2, ih]
            simp [gfsEmitName]
          · have hreq2 : gfsRequiredPred field = false :=
              Bool.eq_false_iff.mpr hreq
            have hreq3 := hreq2
            unfold gfsRequiredPred at hreq3
            rw [if_neg hreq, if_neg (by rw [hreq3]; simp), ih]

/-- C6: in the struct schema produced by `generate_filtered_schema`, the
`required` list consists of exactly the emitted names of the non-skipped,
non-filtered fields that are non-`Option`, carry no default-value
annotation and no `skip_serializing_if` annotation, in declaration order
(`None` when that list is empty); consequently no `Option`-typed field
contributes a `required` entry. -/
theorem c6_filtered_schema_required (structItem : ItemStruct)
    (omitSet pickSet : List String) (schemaStorage : List StructMetadata)
    (fs : List RsField) (hfields : structItem.fields = Fields.named fs) :
    (generateFilteredSchema structItem omitSet pickSet schemaStorage).required
      = (if (((fs.filter (gfsIncluded (extractRenameAll structItem.attrs)
            omitSet pickSet)).filter gfsRequiredPred).map
            (gfsEmitName (extractRenameAll structItem.attrs))).isEmpty
          then none
          else some (((fs.filter (gfsIncluded
            (extractRenameAll structItem.attrs) omitSet pickSet)).filter
            gfsRequiredPred).map
            (gfsEmitName (extractRenameAll structItem.attrs))))
    ∧ (∀ f ∈ fs,
        gfsRequiredPred f = true ↔
          (isOptionType f.ty = false ∧ extractDefaultIsSome f.attrs = false
            ∧ extractSkipSerializingIf f.attrs = false))
    ∧ ∀ f ∈ fs, isOptionType f.ty = true →
        f ∉ (fs.filter (gfsIncluded (extractRenameAll structItem.attrs)
          omitSet pickSet)).filter gfsRequiredPred := by
  refine ⟨?_, ?_, ?_⟩
  · unfold generateFilteredSchema
    rw [hfields]
    have h := gfsGo_snd (extractRenameAll structItem.attrs) omitSet pickSet
      (schemaStorage.map fun s => (s.name, s.definition))
      (schemaStorage.map fun s => (s.name, s.definition)) fs
    simp only [Schema.required]
    rw [h]
  · intro f _
    simp [gfsRequiredPred, and_assoc]
  · intro f _ hopt hmem
    rw [List.mem_filter] at hmem
    have := hmem.2
    simp [gfsRequiredPred, hopt] at this

/-- C6 witness: only the plain non-`Option`, annotation-free field `id`
lands in `required`. -/
theorem c6_filtered_schema_required_witness :
    c6Struct.fields = Fields.named c6Fields
    ∧ (generateFilteredSchema c6Struct [] [] []).required = some ["id"] := by
  refine ⟨rfl, ?_⟩
  have h := (c6_filtered_schema_required c6Struct [] [] [] c6Fields rfl).1
  rw [h]
  decide

theorem tppShift (h : String → Ty → Parameter) :
    ∀ (elems : List Ty) (n : Nat) (p : String) (ps : List String),
      (List.enumFrom (n + 1) elems).filterMap
          (fun ie => ((p :: ps).get? ie.1).map (fun pname => h pname ie.2))
        = (List.enumFrom n elems).filterMap
          (fun ie => (ps.get? ie.1).map (fun pname => h pname ie.2))
  | [], _, _, _ => rfl
  | e :: es, n, p, ps => by
    simp only [List.enumFrom, List.filterMap_cons]
    have h1 : ((p :: ps).get? (n + 1)) = ps.get? n := rfl
    rw [h1, tppShift h es (n + 1) p ps]

theorem tppNil (h : String → Ty → Parameter) :
    ∀ (elems : List Ty) (n : Nat),
      (List.enumFrom n elems).filterMap
        (fun ie => (([] : List String).get? ie.1).map
          (fun pname => h pname ie.2)) = []
  | [], _ => rfl
  | e :: es, n => by
    simp only [List.enumFrom, List.filterMap_cons]
    have h1 : (([] : List String).get? n) = none := by cases n <;> rfl
    rw [h1, tppNil h es (n + 1)]
    rfl

theorem tuplePathParams_eq_zip (knownSchemas structDefinitions : KnownMap) :
    ∀ (elems : List Ty) (pathParams : List String),
      tuplePathParams elems pathParams knownSchemas structDefinitions
        = (pathParams.zip elems).map fun pe =>
            mkParam pe.1 .path true
              (parseTypeToSchemaRefWithSchemas pe.2 knownSchemas
                structDefinitions)
  | [], pp => by cases pp <;> simp [tuplePathParams]
  | e :: es, [] => by
    simp only [tuplePathParams, List.enum]
    rw [tppNil (fun pname ty => mkParam pname .path true
      (parseTypeToSchemaRefWithSchemas ty knownSchemas structDefinitions))
      (e :: es) 0]
    simp
  | e :: es, p :: ps => by
    simp only [tuplePathParams, List.enum, List.enumFrom,
      List.filterMap_cons]
    have h0 : ((p :: ps).get? 0) = some p := rfl
    rw [h0, tppShift (fun pname ty => mkParam pname .path true
      (parseTypeToSchemaRefWithSchemas ty knownSchemas structDefinitions))
      es 0 p ps]
    have ih := tuplePathParams_eq_zip knownSchemas structDefinitions es ps
    simp only [tuplePathParams, List.enum] at ih
    rw [ih]
    simp [List.zip_cons_cons]

/-- C3 counterexample: for the idiomatic binding `Path((a, b)):
Path<(String, String)>` with two placeholders, the classifier yields NO
parameters at all (`None`) — the name-extraction step rejects the nested
tuple pattern before the tuple branch is reached — while the claim
demands exactly `min(2, 2) = 2` Path parameters. -/
theorem c3_counterexample_tuple_pattern :
    (parseFunctionParameter c3Arg ["x", "y"] [] []).map List.length = none
    ∧ Nat.min (["x", "y"] : List String).length 2 = 2 := by
  exact ⟨by decide, by decide⟩

/-- C3 (amended): for a `Path<T>`-typed argument with tuple arity `k`
whose binding pattern is a plain identifier or a single-identifier
tuple-struct pattern, and a placeholder list of length `N` with
`min(N, k) ≥ 1`, the classifier yields exactly `min(N, k)` Path
parameters, each required, parameter `i` named after placeholder `i`;
tuple elements beyond the placeholder list are dropped silently.  (With
any other binding pattern the argument is not classified at all, and when
`min(N, k) = 0` the tuple branch yields nothing and classification falls
through to the remaining rules.) -/
theorem c3_tuple_path_params (pat : Pat) (name : String)
    (segs : List PathSeg) (tupleElems : List Ty) (argsRest : List GenArg)
    (pathParams : List String) (knownSchemas structDefinitions : KnownMap)
    (hname : extractParamName pat = some name)
    (hlast : segs.getLast? = some (PathSeg.mk "Path"
      (.angleBracketed (.tyArg (.tuple tupleElems) :: argsRest))))
    (hopt : optionTypedHeaderBranch name (.path segs) = none)
    (hmin : 0 < Nat.min pathParams.length tupleElems.length) :
    ∃ params,
      parseFunctionParameter (.typed pat (.path segs)) pathParams
          knownSchemas structDefinitions = some params
      ∧ params.length = Nat.min pathParams.length tupleElems.length
      ∧ params.length ≤ pathParams.length
      ∧ ∀ i, i < params.length →
          ∃ pname,
            pathParams.get? i = some pname
            ∧ (params.get? i).map Parameter.name = some pname
            ∧ (params.get? i).map Parameter.location
                = some ParameterLocation.path
            ∧ (params.get? i).map Parameter.required = some (some true) := by
  have hzip := tuplePathParams_eq_zip knownSchemas structDefinitions
    tupleElems pathParams
  have hlen : (tuplePathParams tupleElems pathParams knownSchemas
      structDefinitions).length
      = Nat.min pathParams.length tupleElems.length := by
    rw [hzip]
    simp [List.length_zip]
  have hne : (tuplePathParams tupleElems pathParams knownSchemas
      structDefinitions).isEmpty = false := by
    cases hE : (tuplePathParams tupleElems pathParams knownSchemas
        structDefinitions).isEmpty with
    | false => rfl
    | true =>
      exfalso
      have := List.isEmpty_iff.mp hE
      rw [this] at hlen
      simp only [List.length_nil] at hlen
      omega
  refine ⟨tuplePathParams tupleElems pathParams knownSchemas
    structDefinitions, ?_, hlen, by rw [hlen]; exact Nat.min_le_left _ _, ?_⟩
  · have heb : extractorBranch name (.path segs) pathParams knownSchemas
        structDefinitions
        = some (some (tuplePathParams tupleElems pathParams knownSchemas
            structDefinitions)) := by
      simp only [extractorBranch, hlast]
      simp [PathSeg.ident, PathSeg.args, hne]
    simp only [parseFunctionParameter, hname, hopt, heb]
  · intro i hi
    rw [hzip] at hi ⊢
    have hiz : i < (pathParams.zip tupleElems).length := by simpa using hi
    have hip : i < pathParams.length := by
      rw [List.length_zip] at hiz; omega
    have hit : i < tupleElems.length := by
      rw [List.length_zip] at hiz; omega
    have hzg : (pathParams.zip tupleElems).get? i
        = some (pathParams.get ⟨i, hip⟩, tupleElems.get ⟨i, hit⟩) :=
      (List.get?_zip_eq_some _ _ _ _).mpr
        ⟨List.get?_eq_get hip, List.get?_eq_get hit⟩
    refine ⟨pathParams.get ⟨i, hip⟩, List.get?_eq_get hip, ?_, ?_, ?_⟩
    all_goals rw [List.get?_map, hzg]; rfl

/-- C3 witness: `params: Path<(String, i32)>` against placeholders
`["user_id", "count"]` yields exactly two required, positionally named
Path parameters. -/
theorem c3_tuple_path_params_witness :
    extractParamName (Pat.ident "params") = some "params"
    ∧ ∃ params,
        parseFunctionParameter
          (FnArg.typed (Pat.ident "params")
            (Ty.path [PathSeg.mk "Path" (PathArgs.angleBracketed
              (GenArg.tyArg (Ty.tuple [tyStr, tyI32]) :: []))]))
          ["user_id", "count"] [] [] = some params
        ∧ params.length
            = Nat.min (["user_id", "count"] : List String).length
              ([tyStr, tyI32] : List Ty).length
        ∧ params.length ≤ (["user_id", "count"] : List String).length
        ∧ ∀ i, i < params.length →
            ∃ pname,
              (["user_id", "count"] : List String).get? i = some pname
              ∧ (params.get? i).map Parameter.name = some pname
              ∧ (params.get? i).map Parameter.location
                  = some ParameterLocation.path
              ∧ (params.get? i).map Parameter.required
                  = some (some true) :=
  ⟨rfl, c3_tuple_path_params (Pat.ident "params") "params"
    [PathSeg.mk "Path" (PathArgs.angleBracketed
      (GenArg.tyArg (Ty.tuple [tyStr, tyI32]) :: []))]
    [tyStr, tyI32] [] ["user_id", "count"] [] [] rfl rfl rfl (by decide)⟩

/-- C5: for a `Path<T>`-typed argument with non-tuple `T` (and a nameable
binding pattern, which the claim presupposes by referring to "the binding
pattern's own name"), the classifier yields exactly one required Path
parameter; when the route has exactly one placeholder the parameter takes
the placeholder's name, overriding the binding name; otherwise it keeps
the binding name. -/
theorem c5_single_path_param (pat : Pat) (name : String)
    (segs : List PathSeg) (inner : Ty) (argsRest : List GenArg)
    (pathParams : List String) (knownSchemas structDefinitions : KnownMap)
    (hname : extractParamName pat = some name)
    (hlast : segs.getLast? = some (PathSeg.mk "Path"
      (.angleBracketed (.tyArg inner :: argsRest))))
    (hopt : optionTypedHeaderBranch name (.path segs) = none)
    (hnt : ∀ es, inner ≠ Ty.tuple es) :
    ∃ p, parseFunctionParameter (.typed pat (.path segs)) pathParams
          knownSchemas structDefinitions = some [p]
      ∧ p.location = ParameterLocation.path
      ∧ p.required = some true
      ∧ (∀ ph, pathParams = [ph] → p.name = ph)
      ∧ (pathParams.length ≠ 1 → p.name = name) := by
  refine ⟨mkParam
    (if pathParams.length == 1 then (pathParams.head?).getD name else name)
    .path true
    (parseTypeToSchemaRefWithSchemas inner knownSchemas structDefinitions),
    ?_, rfl, rfl, ?_, ?_⟩
  · have heb : extractorBranch name (.path segs) pathParams knownSchemas
        structDefinitions
        = some (some [mkParam
          (if pathParams.length == 1 then (pathParams.head?).getD name
            else name)
          .path true
          (parseTypeToSchemaRefWithSchemas inner knownSchemas
            structDefinitions)]) := by
      simp only [extractorBranch, hlast]
      cases inner
      case tuple es => exact absurd rfl (hnt es)
      all_goals simp [PathSeg.ident, PathSeg.args]
    simp only [parseFunctionParameter, hname, hopt, heb]
  · intro ph hph
    subst hph
    simp [mkParam]
  · intro hne
    have hb : (pathParams.length == 1) = false := by
      cases h : pathParams.length == 1 with
      | false => rfl
      | true => simp at h; exact absurd h hne
    simp [mkParam, hb]

/-- C5 witness: `Path(id): Path<i32>` with the single placeholder
`item_id` — the placeholder name wins over the binding name `id`. -/
theorem c5_single_path_param_witness :
    ∃ p, parseFunctionParameter
        (FnArg.typed (Pat.tupleStruct [Pat.ident "id"])
          (Ty.path [PathSeg.mk "Path" (PathArgs.angleBracketed
            (GenArg.tyArg tyI32 :: []))]))
        ["item_id"] [] [] = some [p]
      ∧ p.location = ParameterLocation.path
      ∧ p.required = some true
      ∧ (∀ ph, (["item_id"] : List String) = [ph] → p.name = ph)
      ∧ ((["item_id"] : List String).length ≠ 1 → p.name = "id") :=
  c5_single_path_param (Pat.tupleStruct [Pat.ident "id"]) "id"
    [PathSeg.mk "Path" (PathArgs.angleBracketed (GenArg.tyArg tyI32 :: []))]
    tyI32 [] ["item_id"] [] [] rfl rfl rfl
    (by intro es h; simp [tyI32] at h)

theorem othb_ne_nil (n : String) (ty : Ty) (l : List Parameter)
    (h : optionTypedHeaderBranch n ty = some l) : l ≠ [] := by
  unfold optionTypedHeaderBranch at h
  repeat' split at h
  all_goals first
    | exact Option.noConfusion h
    | (rw [Option.some_inj] at h; subst h; simp)

theorem guard_ne_nil (p l : List Parameter)
    (h : (if !p.isEmpty then some p else none) = some l) : l ≠ [] := by
  split at h
  · rename_i hg
    rw [Option.some_inj] at h
    subst h
    intro hnil
    rw [hnil] at hg
    simp at hg
  · exact Option.noConfusion h

theorem guard2_ne_nil (p l : List Parameter)
    (h : (if !p.isEmpty then some (some p) else none) = some (some l)) :
    l ≠ [] := by
  split at h
  · rename_i hg
    rw [Option.some_inj, Option.some_inj] at h
    subst h
    intro hnil
    rw [hnil] at hg
    simp at hg
  · exact Option.noConfusion h

theorem pqsp_ne_nil (ty : Ty) (ks sd : KnownMap) (l : List Parameter)
    (h : parseQueryStructToParameters ty ks sd = some l) : l ≠ [] := by
  unfold parseQueryStructToParameters at h
  repeat' split at h
  all_goals first
    | exact Option.noConfusion h
    | exact guard_ne_nil _ _ h

theorem eb_ne_nil (n : String) (ty : Ty) (pp : List String) (ks sd : KnownMap)
    (l : List Parameter)
    (h : extractorBranch n ty pp ks sd = some (some l)) : l ≠ [] := by
  unfold extractorBranch at h
  repeat' split at h
  all_goals first
    | exact Option.noConfusion h
    | exact Option.noConfusion (Option.some_inj.mp h)
    | (rw [Option.some_inj, Option.some_inj] at h; subst h; simp; done)
    | exact guard2_ne_nil _ _ h
    | (rename_i hq; rw [Option.some_inj, Option.some_inj] at h; subst h;
       exact pqsp_ne_nil _ _ _ _ hq)

/-- C10: whenever `parse_function_parameter` returns `Some(list)`, the
list of parameters is nonempty — every branch of the classifier either
returns a singleton, guards an expansion by an emptiness check, or falls
through to `None`. -/
theorem c10_some_is_nonempty (arg : FnArg) (pathParams : List String)
    (knownSchemas structDefinitions : KnownMap) (l : List Parameter)
    (h : parseFunctionParameter arg pathParams knownSchemas structDefinitions
      = some l) : l ≠ [] := by
  unfold parseFunctionParameter at h
  split at h
  · exact Option.noConfusion h
  · split at h
    · exact Option.noConfusion h
    · rename_i pn hname
      split at h
      · rename_i r hothb
        rw [Option.some_inj] at h
        subst h
        exact othb_ne_nil _ _ _ hothb
      · rename_i hothb
        split at h
        · rename_i r heb
          subst h
          exact eb_ne_nil _ _ _ _ _ _ heb
        · rename_i heb
          split at h
          · rw [Option.some_inj] at h
            subst h
            simp
          · exact Option.noConfusion h

/-- C10 witness: the classifier output for `id: Path<i32>` under one
placeholder is a concrete nonempty singleton. -/
theorem c10_some_is_nonempty_witness :
    [mkParam "item_id" ParameterLocation.path true
      (parseTypeToSchemaRefWithSchemas tyI32 [] [])] ≠ [] :=
  c10_some_is_nonempty
    (FnArg.typed (Pat.ident "id") (Ty.path [PathSeg.mk "Path"
      (PathArgs.angleBracketed (GenArg.tyArg tyI32 :: []))]))
    ["item_id"] [] [] _ rfl

theorem evalAssignments_mem_error (env : String → Loaded)
    (n : String) (fc : FieldCode) (e : DbErr)
    (herr : evalFieldCode env fc = .error e) :
    ∀ l : List (String × FieldCode), (n, fc) ∈ l →
      ∀ vs, evalAssignments env l ≠ .ok vs := by
  intro l
  induction l with
  | nil => intro hmem; exact absurd hmem (List.not_mem_nil _)
  | cons hd tl ih =>
    obtain ⟨n0, fc0⟩ := hd
    intro hmem vs hok
    simp only [evalAssignments] at hok
    rcases List.mem_cons.mp hmem with heq | htl
    · cases heq
      rw [herr] at hok
      simp at hok
    · cases hval : evalFieldCode env fc0 with
      | error e0 => rw [hval] at hok; simp at hok
      | ok v =>
        rw [hval] at hok
        cases hrest : evalAssignments env tl with
        | error e0 => rw [hrest] at hok; simp at hok
        | ok vs0 => exact ih htl vs0 hrest

/-- C4: for a required (non-optional) `HasOne`/`BelongsTo` relation field,
when the loaded related instance is absent the generated assignment
evaluates to the distinct `RecordNotFound` error carrying the message
`Required relation \x27<field>\x27 not found`; the assignment is part of
the generated implementation, and the whole construction propagates the
error to the caller instead of producing any (defaulted) value — and since
evaluation is a total function into `Except`, no panicking path exists. -/
theorem c4_required_relation_record_not_found
    (lookup : String → Option StructMetadata) (newTypeName : String)
    (sourceType : Ty) (fieldMappings : List FieldMapping)
    (relationFields : List RelationFieldInfo)
    (sourceModulePath : List String) (schemaStorage : List StructMetadata)
    (fm : FieldMapping) (rel : RelationFieldInfo) (env : String → Loaded)
    (hmem : fm ∈ fieldMappings)
    (hisrel : fm.isRelation = true)
    (hfind : relationFields.find? (fun r => r.fieldName == fm.sourceIdent)
      = some rel)
    (hty : rel.relationType = "HasOne" ∨ rel.relationType = "BelongsTo")
    (hopt : rel.isOptional = false)
    (henv : env fm.sourceIdent = Loaded.one none) :
    evalFieldCode env (generateFieldAssignment lookup newTypeName
        sourceModulePath relationFields fm)
      = .error (.recordNotFound (reqMsg fm.sourceIdent))
    ∧ (fm.newIdent, generateFieldAssignment lookup newTypeName
        sourceModulePath relationFields fm)
      ∈ (generateFromModelWithRelations lookup newTypeName sourceType
          fieldMappings relationFields sourceModulePath
          schemaStorage).assignments
    ∧ ∀ vs, evalAssignments env (generateFromModelWithRelations lookup
        newTypeName sourceType fieldMappings relationFields sourceModulePath
        schemaStorage).assignments ≠ .ok vs := by
  have htyb : (rel.relationType == "HasOne"
      || rel.relationType == "BelongsTo") = true := by
    rcases hty with h | h <;> rw [h] <;> rfl
  have herr : evalFieldCode env (generateFieldAssignment lookup newTypeName
      sourceModulePath relationFields fm)
      = .error (.recordNotFound (reqMsg fm.sourceIdent)) := by
    simp only [generateFieldAssignment, hisrel, hfind, if_true]
    split
    · simp only [htyb, hopt, if_true, if_false]
      simp [evalFieldCode, envOne, henv]
    · simp only [htyb, hopt, if_true, if_false]
      split
      · simp [evalFieldCode, envOne, henv]
      · split
        · simp [evalFieldCode, envOne, henv]
        · simp [evalFieldCode, envOne, henv]
  refine ⟨herr, ?_, ?_⟩
  · simp only [generateFromModelWithRelations]
    exact List.mem_map_of_mem _ hmem
  · exact evalAssignments_mem_error env fm.newIdent _ _ herr _
      (by simp only [generateFromModelWithRelations]
          exact List.mem_map_of_mem _ hmem)

/-- C4 witness: `MemoSchema`'s required `user` relation with an empty
loaded relation — the evaluation yields exactly
`RecordNotFound "Required relation \x27user\x27 not found"`. -/
theorem c4_required_relation_record_not_found_witness :
    evalFieldCode absentUserEnv (generateFieldAssignment (fun _ => none)
        "MemoSchema" ["crate", "models", "memo"] [userRel]
        { newIdent := "user", sourceIdent := "user", wrapped := false,
          isRelation := true })
      = .error (.recordNotFound (reqMsg "user"))
    ∧ ("user", generateFieldAssignment (fun _ => none) "MemoSchema"
        ["crate", "models", "memo"] [userRel]
        { newIdent := "user", sourceIdent := "user", wrapped := false,
          isRelation := true })
      ∈ (generateFromModelWithRelations (fun _ => none) "MemoSchema"
          dummyTy memoMappings [userRel] ["crate", "models", "memo"]
          []).assignments
    ∧ ∀ vs, evalAssignments absentUserEnv
        (generateFromModelWithRelations (fun _ => none) "MemoSchema"
          dummyTy memoMappings [userRel] ["crate", "models", "memo"]
          []).assignments ≠ .ok vs :=
  c4_required_relation_record_not_found (fun _ => none) "MemoSchema"
    dummyTy memoMappings [userRel] ["crate", "models", "memo"] []
    { newIdent := "user", sourceIdent := "user", wrapped := false,
      isRelation := true }
    userRel absentUserEnv (by decide) rfl rfl (Or.inr rfl) rfl rfl

theorem gdfr_isDefaultLike (ty : Ty) (fi : String) (fieldAttrs : Attrs)
    (allFields : List RsField) :
    (generateDefaultForRelationField ty fi fieldAttrs allFields).isDefaultLike
      = true := by
  simp only [generateDefaultForRelationField]
  repeat' split
  all_goals rfl

/-- C1: for a two-hop mutually-referencing pair (the source type has-many
the related type, whose back-reference field `cf` is a required
belongs-to), the bridging code generated for the source type carries a
parent stub whose relation fields are all `vec![]` or `None` and whose
other fields are plain clones of the model; the has-many assignment is an
inline struct literal in which the required back-pointer is filled with
that parent stub, every circular or relation-typed sub-field of the
related definition is default-filled (never copied), and the assignment
delegates to no other conversion — so the generated recursion bottoms out
one level down. -/
theorem c1_two_hop_bridging_bottoms_out
    (lookup : String → Option StructMetadata) (newTypeName : String)
    (sourceType : Ty) (fieldMappings : List FieldMapping)
    (relationFields : List RelationFieldInfo)
    (sourceModulePath : List String) (schemaStorage : List StructMetadata)
    (rel : RelationFieldInfo) (bDef : ItemStruct) (bFields : List RsField)
    (circ : List String) (cf : String) (b : RsField) (fk : String)
    (fm : FieldMapping)
    (hrelmem : rel ∈ relationFields)
    (hhm : rel.relationType = "HasMany")
    (hnoinline : rel.inlineTypeInfo = none)
    (hdef : lookupRelatedDef lookup rel.schemaPath = some bDef)
    (hnamed : bDef.fields = Fields.named bFields)
    (hcirc : detectCircularFields newTypeName sourceModulePath (some bDef)
      = circ)
    (hcf : cf ∈ circ)
    (hreq : isCircularRelationRequired (some bDef) cf = true)
    (hfmmem : fm ∈ fieldMappings)
    (hisrel : fm.isRelation = true)
    (hfind : relationFields.find? (fun r => r.fieldName == fm.sourceIdent)
      = some rel)
    (hcov : ∀ g ∈ fieldMappings, g.isRelation = true →
      ∃ r, relationFields.find? (fun x => x.fieldName == g.sourceIdent)
        = some r)
    (hb : b ∈ bFields) (hbid : b.ident = some cf)
    (hbskip : extractSkip b.attrs = false)
    (hbnm : strContains (renderTyNorm b.ty) "HasMany<" = false)
    (hbbt : strContains (renderTyNorm b.ty) "HasOne<" = true
      ∨ strContains (renderTyNorm b.ty) "BelongsTo<" = true)
    (hbfk : extractBelongsToFromField b.attrs = some fk)
    (hfkopt : (bFields.any fun f => f.ident == some fk && isOptionType f.ty)
      = false) :
    (generateFromModelWithRelations lookup newTypeName sourceType
        fieldMappings relationFields sourceModulePath
        schemaStorage).parentStub
      = some (fieldMappings.map (generateStubAssign relationFields))
    ∧ (∀ g ∈ fieldMappings, g.isRelation = false →
        generateStubAssign relationFields g
          = (g.newIdent, StubAssign.cloneModel g.sourceIdent))
    ∧ (∀ g ∈ fieldMappings, g.isRelation = true →
        (generateStubAssign relationFields g).snd = StubAssign.vecEmpty
        ∨ (generateStubAssign relationFields g).snd = StubAssign.noneVal)
    ∧ (fm.newIdent, FieldCode.collectInline fm.sourceIdent
        (generateInlineStructConstruction rel.schemaPath (some bDef) circ
          "r"))
      ∈ (generateFromModelWithRelations lookup newTypeName sourceType
          fieldMappings relationFields sourceModulePath
          schemaStorage).assignments
    ∧ (∃ assigns,
        generateInlineStructConstruction rel.schemaPath (some bDef) circ "r"
          = InlineConstruct.structLit rel.schemaPath assigns
        ∧ (cf, InlineAssign.parentStub) ∈ assigns
        ∧ ∀ g ∈ bFields, ∀ gi, g.ident = some gi →
            extractSkip g.attrs = false →
            (circ.contains gi || isSeaormRelationType g.ty) = true →
            (gi, generateDefaultForRelationField g.ty gi g.attrs bFields)
              ∈ assigns
            ∧ (generateDefaultForRelationField g.ty gi g.attrs
                bFields).isDefaultLike = true)
    ∧ FieldCode.delegates (FieldCode.collectInline fm.sourceIdent
        (generateInlineStructConstruction rel.schemaPath (some bDef) circ
          "r")) = false := by
  have hcfc : circ.contains cf = true := List.elem_iff.mpr hcf
  have hne : circ.isEmpty = false := by
    cases circ with
    | nil => exact absurd hcf (List.not_mem_nil _)
    | cons a l => rfl
  have hstub : (relationFields.any fun r =>
      if r.relationType != "HasMany" then false
      else if r.inlineTypeInfo.isSome then false
      else
        match lookupRelatedDef lookup r.schemaPath with
        | some parsedModel =>
          (detectCircularFields newTypeName sourceModulePath
            (some parsedModel)).any fun c =>
              isCircularRelationRequired (some parsedModel) c
        | none => false) = true := by
    apply List.any_eq_true.mpr
    refine ⟨rel, hrelmem, ?_⟩
    rw [hhm, hnoinline, hdef]
    simp only [bne_self_eq_false, Option.isSome_none, Bool.false_eq_true,
      if_false]
    rw [hcirc]
    exact List.any_eq_true.mpr ⟨cf, hcf, hreq⟩
  have hsl : generateInlineStructConstruction rel.schemaPath (some bDef) circ
      "r"
      = InlineConstruct.structLit rel.schemaPath
        (bFields.filterMap fun field =>
          match field.ident with
          | none => none
          | some fieldIdent =>
            if extractSkip field.attrs then none
            else if circ.contains fieldIdent
                || isSeaormRelationType field.ty then
              some (fieldIdent,
                generateDefaultForRelationField field.ty fieldIdent
                  field.attrs bFields)
            else some (fieldIdent, InlineAssign.copyVar "r" fieldIdent)) := by
    simp only [generateInlineStructConstruction, hnamed]
  have hgd : generateDefaultForRelationField b.ty cf b.attrs bFields
      = InlineAssign.parentStub := by
    simp only [generateDefaultForRelationField]
    rw [hbnm]
    simp only [Bool.false_eq_true, if_false]
    have hor : (strContains (renderTyNorm b.ty) "HasOne<"
        || strContains (renderTyNorm b.ty) "BelongsTo<") = true := by
      rcases hbbt with h | h <;> simp [h]
    rw [hor, hbfk]
    simp [hfkopt]
  have hga : generateFieldAssignment lookup newTypeName sourceModulePath
      relationFields fm
      = FieldCode.collectInline fm.sourceIdent
        (generateInlineStructConstruction rel.schemaPath (some bDef) circ
          "r") := by
    have h1 : (("HasMany" == "HasOne") || ("HasMany" == "BelongsTo"))
        = false := by decide
    have h2 : ("HasMany" == "HasMany") = true := by decide
    simp only [generateFieldAssignment, hisrel, hfind, hnoinline, hdef,
      hcirc, hhm, h1, h2, hne, if_true, Bool.false_eq_true, if_false,
      Bool.not_false, Bool.not_true]
  refine ⟨?_, ?_, ?_, ?_, ?_, ?_⟩
  · simp only [generateFromModelWithRelations]
    rw [hstub]
    simp
  · intro g hg hgrel
    unfold generateStubAssign
    simp [hgrel]
  · intro g hg hgrel
    obtain ⟨r, hr⟩ := hcov g hg hgrel
    unfold generateStubAssign
    simp only [hgrel, hr, if_true]
    cases hmany : (r.relationType == "HasMany") with
    | true => left; simp [hmany]
    | false => right; simp [hmany]
  · simp only [generateFromModelWithRelations]
    apply List.mem_map.mpr
    exact ⟨fm, hfmmem, by rw [hga]⟩
  · refine ⟨bFields.filterMap fun field =>
      match field.ident with
      | none => none
      | some fieldIdent =>
        if extractSkip field.attrs then none
        else if circ.contains fieldIdent
            || isSeaormRelationType field.ty then
          some (fieldIdent,
            generateDefaultForRelationField field.ty fieldIdent field.attrs
              bFields)
        else some (fieldIdent, InlineAssign.copyVar "r" fieldIdent),
      hsl, ?_, ?_⟩
    · apply List.mem_filterMap.mpr
      refine ⟨b, hb, ?_⟩
      rw [hbid]
      simp only [hbskip, Bool.false_eq_true, if_false, hcfc, Bool.true_or,
        if_true, hgd]
    · intro g hg gi hgi hskip hcond
      refine ⟨?_, gdfr_isDefaultLike _ _ _ _⟩
      apply List.mem_filterMap.mpr
      refine ⟨g, hg, ?_⟩
      rw [hgi]
      simp only [hskip, Bool.false_eq_true, if_false, hcond, if_true]
  · rw [hsl]
    rfl

/-- C1 witness: the `User` has-many `Memo` / `Memo` required belongs-to
`User` pair — the generated `UserSchema` bridge carries a parent stub and
a non-delegating inline construction whose `user` back-pointer is the
stub. -/
theorem c1_two_hop_bridging_bottoms_out_witness :
    (generateFromModelWithRelations memoLookup "UserSchema" dummyTy
        userMappings [memosRel] ["crate", "models", "user"] []).parentStub
      = some (userMappings.map (generateStubAssign [memosRel]))
    ∧ (∀ g ∈ userMappings, g.isRelation = false →
        generateStubAssign [memosRel] g
          = (g.newIdent, StubAssign.cloneModel g.sourceIdent))
    ∧ (∀ g ∈ userMappings, g.isRelation = true →
        (generateStubAssign [memosRel] g).snd = StubAssign.vecEmpty
        ∨ (generateStubAssign [memosRel] g).snd = StubAssign.noneVal)
    ∧ ("memos", FieldCode.collectInline "memos"
        (generateInlineStructConstruction memosRel.schemaPath
          (some memoModel) ["user"] "r"))
      ∈ (generateFromModelWithRelations memoLookup "UserSchema" dummyTy
          userMappings [memosRel] ["crate", "models", "user"] []).assignments
    ∧ (∃ assigns,
        generateInlineStructConstruction memosRel.schemaPath (some memoModel)
          ["user"] "r"
          = InlineConstruct.structLit memosRel.schemaPath assigns
        ∧ ("user", InlineAssign.parentStub) ∈ assigns
        ∧ ∀ g ∈ [({ ident := some "id", attrs := {}, ty := tyI32 } : RsField),
            { ident := some "user_id", attrs := {}, ty := tyI32 },
            { ident := some "user", attrs := { seaOrmFrom := some "user_id" },
              ty := belongsToUserEntity }], ∀ gi, g.ident = some gi →
            extractSkip g.attrs = false →
            ((["user"] : List String).contains gi
              || isSeaormRelationType g.ty) = true →
            (gi, generateDefaultForRelationField g.ty gi g.attrs
              [({ ident := some "id", attrs := {}, ty := tyI32 } : RsField),
               { ident := some "user_id", attrs := {}, ty := tyI32 },
               { ident := some "user",
                 attrs := { seaOrmFrom := some "user_id" },
                 ty := belongsToUserEntity }]) ∈ assigns
            ∧ (generateDefaultForRelationField g.ty gi g.attrs
                [({ ident := some "id", attrs := {}, ty := tyI32 } :
                    RsField),
                 { ident := some "user_id", attrs := {}, ty := tyI32 },
                 { ident := some "user",
                   attrs := { seaOrmFrom := some "user_id" },
                   ty := belongsToUserEntity }]).isDefaultLike = true)
    ∧ FieldCode.delegates (FieldCode.collectInline "memos"
        (generateInlineStructConstruction memosRel.schemaPath
          (some memoModel) ["user"] "r")) = false :=
  c1_two_hop_bridging_bottoms_out memoLookup "UserSchema" dummyTy
    userMappings [memosRel] ["crate", "models", "user"] []
    memosRel memoModel
    [{ ident := some "id", attrs := {}, ty := tyI32 },
     { ident := some "user_id", attrs := {}, ty := tyI32 },
     { ident := some "user", attrs := { seaOrmFrom := some "user_id" },
       ty := belongsToUserEntity }]
    ["user"] "user"
    { ident := some "user", attrs := { seaOrmFrom := some "user_id" },
      ty := belongsToUserEntity }
    "user_id"
    { newIdent := "memos", sourceIdent := "memos", wrapped := false,
      isRelation := true }
    (List.mem_singleton.mpr rfl) rfl rfl rfl rfl rfl
    (List.mem_singleton.mpr rfl) rfl (by decide) rfl rfl
    (by
      intro g hg hgrel
      rcases List.mem_cons.mp hg with h | h
      · subst h; exact absurd hgrel (by decide)
      · rcases List.mem_cons.mp h with h2 | h2
        · subst h2; exact ⟨memosRel, rfl⟩
        · exact absurd h2 (List.not_mem_nil _))
    (List.mem_cons_of_mem _ (List.mem_cons_of_mem _
      (List.mem_cons_self _ _)))
    rfl rfl rfl (Or.inr rfl) rfl rfl
